import Mathlib

/-! Verification development for SU2: the line element of the primal grid, the
history output of the compressible solver, the structural solution variables,
and the face-matching topology kernel.

Shallow embedding of `Common/include/geometry/primal_grid/CLine.hpp`,
`Common/src/geometry/primal_grid/CLine.cpp`,
`SU2_CFD/src/output/CFlowCompOutput.cpp` and
`SU2_CFD/src/variables/CFEAVariable.cpp`.

* Global node indices are `unsigned long` in the source.  No arithmetic is ever
  performed on them (they are only stored, read and swapped), so they are
  embedded as `Nat`; every statement below quantifies over all naturals and
  therefore over every 64-bit value.
* The raw array `Nodes` (a `new unsigned long[GetnNodes()]`) is an `Array Nat`.
* The `static constexpr` tables of `CLineConnectivity` are lists of rows.
* Integer arithmetic that can wrap around is taken modulo the width of its
  type: the 16-bit loop counter and the 16-bit field counters of the
  constructor of `CFlowCompOutput`, the 64-bit column indices of
  `CFEAVariable`.
* Values of type `su2double` are only stored and copied; they are the elements
  of a type parameter `R`.
-/

namespace SU2

/-! ## Constants of `option_structure.hpp` used by the line descriptor -/

/-- Modelled from the spec: the macro `N_POINTS_LINE` (defined in
`option_structure.hpp`) — the line has two nodes, "its two endpoints". The
array bounds `Neighbor_Nodes[2][1]` and `nNeighbor_Nodes[2]` of the source
agree with this value. -/
def N_POINTS_LINE : Nat := 2

/-- Modelled from the spec: the macro `N_FACES_LINE` (defined in
`option_structure.hpp`) — "the degenerate 1-D line shape has exactly one
face". The array bound `Faces[1][2]` of the source agrees with this value. -/
def N_FACES_LINE : Nat := 1

/-! ## `struct CLineConnectivity` -/

namespace CLineConnectivity

/-- Table `Faces[1][2]={{0,1}}`. -/
def Faces : List (List Nat) := [[0, 1]]

/-- Table `Neighbor_Nodes[2][1]={{1},{0}}`. -/
def Neighbor_Nodes : List (List Nat) := [[1], [0]]

/-- Table `nNodesFace[1]={2}`. -/
def nNodesFace : List Nat := [2]

/-- Table `nNeighbor_Nodes[2]={1,1}`. -/
def nNeighbor_Nodes : List Nat := [1, 1]

/-- Constant `nFaces = N_FACES_LINE`. -/
def nFaces : Nat := N_FACES_LINE

/-- Constant `nNodes = N_POINTS_LINE`. -/
def nNodes : Nat := N_POINTS_LINE

/-- Constant `nNeighbor_Elements = 1`. -/
def nNeighbor_Elements : Nat := 1

/-- Constant `VTK_Type = 3`. -/
def VTK_Type : Nat := 3

/-- Constant `maxNodesFace = 2`. -/
def maxNodesFace : Nat := 2

end CLineConnectivity

/-! ## Failure signals -/

/-- Error kinds of the topology kernel (spec, section 7). -/
inductive Error where
  | ValidationError
  | TopologyError
  | GeometryError
  | IndexError
  | LogicError
  deriving DecidableEq, Repr

/-! ## `class CLine` -/

/-- State of a line element that `CLine.hpp` / `CLine.cpp` read or write: the
array `Nodes` of global node indices. -/
structure CLine where
  Nodes : Array Nat
  deriving DecidableEq, Repr

namespace CLine

/-- Modelled from the spec: `GetnNodes()` of the base class template
`CPrimalGridWithConnectivity` (`CPrimalGrid.hpp`), the "node count" of the
element's descriptor, `descriptor.nNodes`. -/
def GetnNodes : Nat := CLineConnectivity.nNodes

/-- Modelled from the spec: `GetnFaces()` of the base class template
(`CPrimalGrid.hpp`), the "face count" of the element's descriptor. -/
def GetnFaces : Nat := CLineConnectivity.nFaces

/-- Constructor `CLine::CLine(val_point_0, val_point_1)`:
`Nodes = new unsigned long[GetnNodes()]; Nodes[0] = val_point_0;
Nodes[1] = val_point_1;`.  The fresh storage is filled with `0` here; both
cells are overwritten before the constructor returns. -/
def new (val_point_0 val_point_1 : Nat) : CLine :=
  let Nodes := Array.mkArray GetnNodes 0
  let Nodes := Nodes.setD 0 val_point_0
  let Nodes := Nodes.setD 1 val_point_1
  { Nodes := Nodes }

/-- The `swap(x, y)` of two array cells: `t = x; x = y; y = t`. -/
def swap (Nodes : Array Nat) (i j : Nat) : Array Nat :=
  let t := Nodes.getD i 0
  let Nodes := Nodes.setD i (Nodes.getD j 0)
  Nodes.setD j t

/-- Method `CLine::Change_Orientation`: `swap(Nodes[0], Nodes[1]);`. -/
def Change_Orientation (e : CLine) : CLine :=
  { e with Nodes := swap e.Nodes 0 1 }

/-- Modelled from the spec: `GetNode(i)` of the base class (`CPrimalGrid.hpp`),
"bounds-checked by shape; `i` must be `< nNodes`, else fails with an
IndexError"; otherwise it reads `Nodes[i]`. -/
def GetNode (e : CLine) (i : Nat) : Except Error Nat :=
  if i < GetnNodes then
    match e.Nodes[i]? with
    | some v => .ok v
    | none => .error .IndexError
  else .error .IndexError

/-- Modelled from the spec: `GetFaces(f, k)` of the base class template
(`CPrimalGrid.hpp`), the entry `Faces[f][k]` of the descriptor's
`faceNodeIndices` ("for each local face, the ordered sequence of local node
positions that compose it"). -/
def GetFaces (val_face val_index : Nat) : Option Nat :=
  match CLineConnectivity.Faces[val_face]? with
  | some row => row[val_index]?
  | none => none

/-- Modelled from the spec: `GetFaceNodeGlobalIndices(localFaceId)`, which
"returns the global node indices composing that face, in the descriptor's
declared local order; fails with IndexError if `localFaceId >= nFaces`". -/
def GetFaceNodeGlobalIndices (e : CLine) (localFaceId : Nat) : Except Error (List Nat) :=
  if localFaceId < GetnFaces then
    match CLineConnectivity.Faces[localFaceId]? with
    | some row => row.mapM (GetNode e)
    | none => .error .IndexError
  else .error .IndexError

/-- Follows the spec's words ("the local nodes directly connected by an edge"):
for the line, whose single face is the pair of endpoints of its one edge, local
nodes `i` and `j` share an edge when they are distinct and both belong to one
row of `Faces`. -/
def sharesEdge (i j : Nat) : Bool :=
  decide (i ≠ j) && CLineConnectivity.Faces.any (fun row => row.contains i && row.contains j)

end CLine

/-! ## Shape tags of the other cell shapes -/

/-- Modelled from the spec: the shape tags of the supported shapes other than
the line, whose descriptors are not part of the line sources — "triangle=5,
quadrilateral=9, tetrahedron=10, hexahedron=12, prism/wedge=13, pyramid=14". -/
def otherShapeTags : List Nat := [5, 9, 10, 12, 13, 14]

/-! ## `CFlowCompOutput.cpp`: compressible-flow output -/

/-- The options of `CConfig` read by the functions of `CFlowCompOutput.cpp`
embedded below, one field per getter (`GetTime_Domain()`, `GetFixed_CL_Mode()`,
`GetDeform_Mesh()`, `GetViscous()`, `GetAeroelastic_Simulation()`,
`GetEquivArea()`, `GetiZone()`, `GetVolume_FileName()`,
`GetSurfCoeff_FileName()`, `GetRestart_FileName()`, `GetKind_Turb_Model()`). -/
structure CConfig where
  Time_Domain : Bool
  Fixed_CL_Mode : Bool
  Deform_Mesh : Bool
  Viscous : Bool
  Aeroelastic_Simulation : Bool
  EquivArea : Bool
  iZone : Nat
  Volume_FileName : String
  SurfCoeff_FileName : String
  Restart_FileName : String
  Kind_Turb_Model : Nat
  deriving DecidableEq, Repr

namespace CFlowCompOutput

/-- Method `CFlowCompOutput::SetInit_Residuals`:
`return (GetTime_Marching() != STEADY && (curInnerIter == 0)) ||
(GetTime_Marching() == STEADY && (curInnerIter < 2));`.
The enumeration `TIME_MARCHING` is declared in `option_structure.hpp`; it is
taken as a parameter: any type `TM` with decidable equality, its enumerator
`STEADY`, and the value `Time_Marching` returned by the getter. -/
def SetInit_Residuals {TM : Type} [DecidableEq TM] (STEADY Time_Marching : TM)
    (curInnerIter : Nat) : Bool :=
  (decide (Time_Marching ≠ STEADY) && decide (curInnerIter = 0)) ||
    (decide (Time_Marching = STEADY) && decide (curInnerIter < 2))

/-- Method `CFlowCompOutput::SetHistoryOutputFields`: the names (first
argument) of its direct calls of `AddHistoryOutput`, in source order.  The
calls of the helpers of the base classes (`AddHistoryOutputFields_Scalar*`,
`AddHistoryOutputPerSurface`, `AddAnalyzeSurfaceOutput`,
`AddAerodynamicCoefficients`, `Add_CpInverseDesignOutput`,
`Add_NearfieldInverseDesignOutput`) register further names and are not
listed. -/
def SetHistoryOutputFields (config : CConfig) (nDim : Nat) : List String :=
  ["RMS_DENSITY", "RMS_MOMENTUM-X", "RMS_MOMENTUM-Y"]
    ++ (if nDim = 3 then ["RMS_MOMENTUM-Z"] else [])
    ++ ["RMS_ENERGY"]
    ++ ["MAX_DENSITY", "MAX_MOMENTUM-X", "MAX_MOMENTUM-Y"]
    ++ (if nDim = 3 then ["MAX_MOMENTUM-Z"] else [])
    ++ ["MAX_ENERGY"]
    ++ ["BGS_DENSITY", "BGS_MOMENTUM-X", "BGS_MOMENTUM-Y"]
    ++ (if nDim = 3 then ["BGS_MOMENTUM-Z"] else [])
    ++ ["BGS_ENERGY"]
    ++ ["LINSOL_ITER", "LINSOL_RESIDUAL"]
    ++ ["FIGURE_OF_MERIT", "THRUST", "TORQUE"]
    ++ ["NEARFIELD_OF"]
    ++ ["TOTAL_HEATFLUX", "MAXIMUM_HEATFLUX"]
    ++ ["MIN_DELTA_TIME", "MAX_DELTA_TIME"]
    ++ ["MIN_CFL", "MAX_CFL", "AVG_CFL"]
    ++ (if config.Fixed_CL_Mode then
          ["DELTA_CL", "PREV_AOA", "CHANGE_IN_AOA", "CL_DRIVER_COMMAND"] else [])
    ++ (if config.Deform_Mesh then
          ["DEFORM_MIN_VOLUME", "DEFORM_MAX_VOLUME", "DEFORM_ITER", "DEFORM_RESIDUAL"] else [])
    ++ (if config.Viscous then ["BUFFET"] else [])

/-- Method `CFlowCompOutput::LoadHistoryData`: the names (first argument) of
its direct calls of `SetHistoryOutputValue`, in source order; `multiZone` is
the member of the base class read by the method.  The helpers of the base
classes (`LoadHistoryData_Scalar`, `SetAnalyzeSurface`,
`SetAerodynamicCoefficients`, `SetRotatingFrameCoefficients`,
`Set_CpInverseDesign`, `Set_NearfieldInverseDesign`,
`SetCustomAndComboObjectives`) set further names and are not listed. -/
def LoadHistoryData (config : CConfig) (multiZone : Bool) (nDim : Nat) : List String :=
  ["RMS_DENSITY", "RMS_MOMENTUM-X", "RMS_MOMENTUM-Y"]
    ++ (if nDim = 2 then ["RMS_ENERGY"] else ["RMS_MOMENTUM-Z", "RMS_ENERGY"])
    ++ ["MAX_DENSITY", "MAX_MOMENTUM-X", "MAX_MOMENTUM-Y"]
    ++ (if nDim = 2 then ["MAX_ENERGY"] else ["MAX_MOMENTUM-Z", "MAX_ENERGY"])
    ++ (if multiZone then
          ["BGS_DENSITY", "BGS_MOMENTUM-X", "BGS_MOMENTUM-Y"]
            ++ (if nDim = 2 then ["BGS_ENERGY"] else ["BGS_MOMENTUM-Z", "BGS_ENERGY"])
        else [])
    ++ ["TOTAL_HEATFLUX", "MAXIMUM_HEATFLUX"]
    ++ ["MIN_DELTA_TIME", "MAX_DELTA_TIME"]
    ++ ["MIN_CFL", "MAX_CFL", "AVG_CFL"]
    ++ ["LINSOL_ITER", "LINSOL_RESIDUAL"]
    ++ (if config.Deform_Mesh then
          ["DEFORM_MIN_VOLUME", "DEFORM_MAX_VOLUME", "DEFORM_ITER", "DEFORM_RESIDUAL"] else [])
    ++ (if config.Fixed_CL_Mode then
          ["DELTA_CL", "PREV_AOA", "CHANGE_IN_AOA", "CL_DRIVER_COMMAND"] else [])
    ++ (if config.Viscous then ["BUFFET"] else [])

end CFlowCompOutput

namespace CFlowCompOutput

/-- Arithmetic of `unsigned short` (16 bits): the value stored in a counter of
that type is taken modulo `2^16`. -/
def wrap16 (n : Nat) : Nat := n % 65536

/-- The members of the output object that the constructor of
`CFlowCompOutput` reads or writes.  They are declared in the base classes
(`COutput.hpp`, `CFlowOutput.hpp`) and initialised by the base-class
constructor `CFlowOutput(config, nDim, false)` before the body of the
constructor runs.  `R` stands for `su2double`: the constructor only stores
zeros of that type, it computes nothing with them.  The three counters
`nRequested*Fields` are `unsigned short` members, like the loop counter
`iField` of the constructor: an assignment from `size()` and the increment
`++` store their result modulo `2^16` (`wrap16`). -/
structure State (R : Type) where
  multiZone : Bool
  gridMovement : Bool
  nCauchy_Elems : Nat
  turb_model : Nat
  requestedHistoryFields : List String
  nRequestedHistoryFields : Nat
  requestedScreenFields : List String
  nRequestedScreenFields : Nat
  requestedVolumeFields : List String
  nRequestedVolumeFields : Nat
  multiZoneHeaderString : String
  volumeFilename : String
  surfaceFilename : String
  restartFilename : String
  convFields : List String
  newFunc : List R
  oldFunc : List R
  cauchySerie : List (List R)

/-- The library call `v.resize(n, val)` of `std::vector`: keep the first `n`
entries, or append copies of `val` up to length `n`. -/
def vector_resize {α : Type} (v : List α) (n : Nat) (val : α) : List α :=
  if n ≤ v.length then v.take n else v ++ List.replicate (n - v.length) val

/-- Constructor, default history fields:
`if (nRequestedHistoryFields == 0){ emplace_back("ITER"); emplace_back("RMS_RES");
nRequestedHistoryFields = requestedHistoryFields.size(); }`. -/
def setDefaultHistoryFields {R : Type} (s : State R) : State R :=
  if s.nRequestedHistoryFields = 0 then
    let fields := (s.requestedHistoryFields ++ ["ITER"]) ++ ["RMS_RES"]
    { s with requestedHistoryFields := fields, nRequestedHistoryFields := wrap16 fields.length }
  else s

/-- Constructor, default screen fields: `if (nRequestedScreenFields == 0){ ... }`,
with `TIME_ITER` under `config->GetTime_Domain()` and `OUTER_ITER` under
`multiZone`. -/
def setDefaultScreenFields {R : Type} (config : CConfig) (s : State R) : State R :=
  if s.nRequestedScreenFields = 0 then
    let fields := s.requestedScreenFields
    let fields := if config.Time_Domain then fields ++ ["TIME_ITER"] else fields
    let fields := if s.multiZone then fields ++ ["OUTER_ITER"] else fields
    let fields := fields ++ ["INNER_ITER"]
    let fields := fields ++ ["RMS_DENSITY"]
    let fields := fields ++ ["RMS_MOMENTUM-X"]
    let fields := fields ++ ["RMS_MOMENTUM-Y"]
    let fields := fields ++ ["RMS_ENERGY"]
    { s with requestedScreenFields := fields, nRequestedScreenFields := wrap16 fields.length }
  else s

/-- Constructor, default volume fields: `if (nRequestedVolumeFields == 0){
emplace_back("COORDINATES"); emplace_back("SOLUTION"); emplace_back("PRIMITIVE");
nRequestedVolumeFields = requestedVolumeFields.size(); }`. -/
def setDefaultVolumeFields {R : Type} (s : State R) : State R :=
  if s.nRequestedVolumeFields = 0 then
    let fields := ((s.requestedVolumeFields ++ ["COORDINATES"]) ++ ["SOLUTION"]) ++ ["PRIMITIVE"]
    { s with requestedVolumeFields := fields, nRequestedVolumeFields := wrap16 fields.length }
  else s

/-- Constructor, grid velocity: `if (gridMovement) { if (find(begin, end,
"GRID_VELOCITY") == end) { emplace_back("GRID_VELOCITY");
nRequestedVolumeFields ++; } }`; the increment of the 16-bit counter wraps. -/
def addGridVelocity {R : Type} (s : State R) : State R :=
  if s.gridMovement then
    if s.requestedVolumeFields.contains "GRID_VELOCITY" then s
    else
      { s with requestedVolumeFields := s.requestedVolumeFields ++ ["GRID_VELOCITY"],
               nRequestedVolumeFields := wrap16 (s.nRequestedVolumeFields + 1) }
  else s

/-- Constructor, header and file names: `ss << "Zone " << config->GetiZone()
<< " (Comp. Fluid)"; multiZoneHeaderString = ss.str();` and the three file
names taken from the configuration. -/
def setNames {R : Type} (config : CConfig) (s : State R) : State R :=
  { s with multiZoneHeaderString := "Zone " ++ toString config.iZone ++ " (Comp. Fluid)",
           volumeFilename := config.Volume_FileName,
           surfaceFilename := config.SurfCoeff_FileName,
           restartFilename := config.Restart_FileName }

/-- Constructor, default convergence field:
`if (convFields.empty()) convFields.emplace_back("RMS_DENSITY");`. -/
def setDefaultConvField {R : Type} (s : State R) : State R :=
  if s.convFields.isEmpty then { s with convFields := s.convFields ++ ["RMS_DENSITY"] } else s

/-- Constructor, the search loop `for (unsigned short iField = 0; iField <
convFields.size(); iField++) if (convFields[iField] == "LIFT") found = true;`.
The counter is a 16-bit unsigned integer, so `iField++` is taken modulo
`65536`; each test of the loop condition uses one unit of `fuel`, and `none`
means that the fuel ran out before the loop ended. -/
def findLIFT (convFields : List String) : Nat → Nat → Bool → Option Bool
  | 0, _, _ => none
  | fuel + 1, iField, found =>
    if h : iField < convFields.length then
      findLIFT convFields fuel ((iField + 1) % 65536)
        (if convFields[iField] = "LIFT" then true else found)
    else some found

/-- Constructor, fixed-CL mode: `if (config->GetFixed_CL_Mode()) { bool found =
false; for ...; if (!found) { convFields.emplace_back("LIFT");
newFunc.resize(convFields.size()); oldFunc.resize(convFields.size());
cauchySerie.resize(convFields.size(), vector<su2double>(nCauchy_Elems, 0.0)); } }`.
The message written to `cout` on the master rank is not part of the state.
`zero` is the value `0.0` of `su2double`. -/
def addLIFT {R : Type} (zero : R) (fuel : Nat) (config : CConfig) (s : State R) :
    Option (State R) :=
  if config.Fixed_CL_Mode then
    match findLIFT s.convFields fuel 0 false with
    | none => none
    | some found =>
      if !found then
        let fields := s.convFields ++ ["LIFT"]
        some { s with convFields := fields,
                      newFunc := vector_resize s.newFunc fields.length zero,
                      oldFunc := vector_resize s.oldFunc fields.length zero,
                      cauchySerie := vector_resize s.cauchySerie fields.length
                        (List.replicate s.nCauchy_Elems zero) }
      else some s
  else some s

/-- Constructor `CFlowCompOutput::CFlowCompOutput(config, nDim)`, applied to
the state `s` left by the base-class constructor: the statements of its body
in source order.  The result is `none` when `fuel` does not suffice for the
search loop of the fixed-CL block. -/
def new {R : Type} (zero : R) (fuel : Nat) (config : CConfig) (s : State R) :
    Option (State R) :=
  let s := { s with turb_model := config.Kind_Turb_Model }
  let s := setDefaultHistoryFields s
  let s := setDefaultScreenFields config s
  let s := setDefaultVolumeFields s
  let s := addGridVelocity s
  let s := setNames config s
  let s := setDefaultConvField s
  addLIFT zero fuel config s

end CFlowCompOutput

namespace CFlowCompOutput

/-- A configuration used to evaluate the constructor: an unsteady, viscous,
fixed-CL run of zone 0. -/
def exampleConfig : CConfig :=
  { Time_Domain := true, Fixed_CL_Mode := true, Deform_Mesh := false, Viscous := true,
    Aeroelastic_Simulation := false, EquivArea := false, iZone := 0,
    Volume_FileName := "flow", SurfCoeff_FileName := "surface_flow",
    Restart_FileName := "restart_flow.dat", Kind_Turb_Model := 0 }

/-- A state on entry to the constructor in which nothing was requested in the
configuration file: all field lists are empty, all counters are 0, the mesh
moves, and `su2double` is represented by `Int`. -/
def exampleState : State Int :=
  { multiZone := false, gridMovement := true, nCauchy_Elems := 3, turb_model := 0,
    requestedHistoryFields := [], nRequestedHistoryFields := 0,
    requestedScreenFields := [], nRequestedScreenFields := 0,
    requestedVolumeFields := [], nRequestedVolumeFields := 0,
    multiZoneHeaderString := "", volumeFilename := "", surfaceFilename := "",
    restartFilename := "", convFields := [], newFunc := [], oldFunc := [], cauchySerie := [] }

end CFlowCompOutput

namespace CFlowCompOutput

/-- A state on entry to the constructor whose counters equal the lengths of
their lists: no history or screen field requested, 65535 volume fields
requested (65535 times `SOLUTION`, so `GRID_VELOCITY` is not among them), and a
moving mesh. -/
def fullVolumeState : State Int :=
  { multiZone := false, gridMovement := true, nCauchy_Elems := 3, turb_model := 0,
    requestedHistoryFields := [], nRequestedHistoryFields := 0,
    requestedScreenFields := [], nRequestedScreenFields := 0,
    requestedVolumeFields := List.replicate 65535 "SOLUTION", nRequestedVolumeFields := 65535,
    multiZoneHeaderString := "", volumeFilename := "", surfaceFilename := "",
    restartFilename := "", convFields := [], newFunc := [], oldFunc := [], cauchySerie := [] }

end CFlowCompOutput

/-! ## `CFEAVariable.cpp`: structural solution variables -/

/-- Arithmetic of `unsigned long` (64 bits): the value of an index expression
is taken modulo `2^64`. -/
def wrap64 (n : Nat) : Nat := n % 18446744073709551616

/-- The matrix container of `Solution` and `Solution_time_n` (`su2activematrix`,
declared outside the sources at hand): `rows` by `cols` entries of type `R`,
which stands for `su2double`; the entries are only copied, never computed
with.  The entry function is consulted inside the declared bounds only. -/
structure su2activematrix (R : Type) where
  rows : Nat
  cols : Nat
  entry : Nat → Nat → R

namespace su2activematrix

/-- Read access `M(i, j)`; `none` when the position lies outside the matrix. -/
def get {R : Type} (M : su2activematrix R) (i j : Nat) : Option R :=
  if i < M.rows ∧ j < M.cols then some (M.entry i j) else none

/-- Write access `M(i, j) = x`; `none` when the position lies outside the
matrix. -/
def set {R : Type} (M : su2activematrix R) (i j : Nat) (x : R) : Option (su2activematrix R) :=
  if i < M.rows ∧ j < M.cols then
    some { M with entry := fun i' j' => if i' = i ∧ j' = j then x else M.entry i' j' }
  else none

end su2activematrix

/-- The members of `CFEAVariable` (inherited from `CVariable`) used by the two
methods embedded below. -/
structure CFEAVariable (R : Type) where
  nPoint : Nat
  nDim : Nat
  nVar : Nat
  Solution : su2activematrix R
  Solution_time_n : su2activematrix R

namespace CFEAVariable

/-- Method `CFEAVariable::SetSolution_Vel_time_n`:
`for (iPoint = 0; iPoint < nPoint; ++iPoint) for (iVar = 0; iVar < nVar; iVar++)
Solution_time_n(iPoint,iVar+nDim) = Solution(iPoint,iVar+nDim);`.
The members `nPoint`, `nVar`, `nDim` are not modified by the loops.  The result
is `none` when an access falls outside one of the matrices. -/
def SetSolution_Vel_time_n {R : Type} (v : CFEAVariable R) : Option (CFEAVariable R) :=
  (List.range v.nPoint).foldlM (fun w iPoint =>
    (List.range v.nVar).foldlM (fun w iVar =>
      match w.Solution.get iPoint (wrap64 (iVar + v.nDim)) with
      | none => none
      | some x =>
        match w.Solution_time_n.set iPoint (wrap64 (iVar + v.nDim)) x with
        | none => none
        | some M => some { w with Solution_time_n := M }) w) v

/-- Method `CFEAVariable::SetSolution_Accel_time_n`:
`for (iPoint = 0; iPoint < nPoint; ++iPoint) for (iVar = 0; iVar < nVar; iVar++)
Solution_time_n(iPoint,iVar+2*nDim) = Solution(iPoint,iVar+2*nDim);`. -/
def SetSolution_Accel_time_n {R : Type} (v : CFEAVariable R) : Option (CFEAVariable R) :=
  (List.range v.nPoint).foldlM (fun w iPoint =>
    (List.range v.nVar).foldlM (fun w iVar =>
      match w.Solution.get iPoint (wrap64 (iVar + wrap64 (2 * v.nDim))) with
      | none => none
      | some x =>
        match w.Solution_time_n.set iPoint (wrap64 (iVar + wrap64 (2 * v.nDim))) x with
        | none => none
        | some M => some { w with Solution_time_n := M }) w) v

/-- The body of the inner loop of both methods, with the column offset `off` as
a parameter: `Solution_time_n(iPoint, iVar+off) = Solution(iPoint, iVar+off)`. -/
def copyEntry {R : Type} (off iPoint : Nat) (w : CFEAVariable R) (iVar : Nat) :
    Option (CFEAVariable R) :=
  match w.Solution.get iPoint (wrap64 (iVar + off)) with
  | none => none
  | some x =>
    match w.Solution_time_n.set iPoint (wrap64 (iVar + off)) x with
    | none => none
    | some M => some { w with Solution_time_n := M }

/-- The inner loop of both methods: `copyEntry` for `iVar = 0, ..., nVar - 1`. -/
def copyRow {R : Type} (off nVar : Nat) (w : CFEAVariable R) (iPoint : Nat) :
    Option (CFEAVariable R) :=
  (List.range nVar).foldlM (copyEntry off iPoint) w

/-- The loop nest shared by the two methods: `copyRow` for
`iPoint = 0, ..., nPoint - 1`. -/
def copyColumns {R : Type} (off : Nat) (v : CFEAVariable R) : Option (CFEAVariable R) :=
  (List.range v.nPoint).foldlM (copyRow off v.nVar) v

/-- A variable container with 2 points, `nDim = 2`, `nVar = 2` and two 2-by-6
matrices: `Solution(i,j) = 100*i + j`, `Solution_time_n(i,j) = -1`. -/
def exampleVariable : CFEAVariable Int :=
  { nPoint := 2, nDim := 2, nVar := 2,
    Solution := { rows := 2, cols := 6, entry := fun i j => 100 * (i : Int) + (j : Int) },
    Solution_time_n := { rows := 2, cols := 6, entry := fun _ _ => -1 } }

end CFEAVariable

/-! ## Topology kernel: elements, face matching and adjacency (spec, sections 3 and 4)

The sources at hand contain the line element only; the other shapes, the
element container and the adjacency builder are modelled from the spec. -/

/-- Modelled from the spec: `ShapeDescriptor` (section 3), the immutable
metadata of one cell shape, which is not under the sources for shapes other
than the line: "`nNodes`, `nFaces`, `nNeighborElements`, `maxNodesFaces`:
counts", "`faceNodeIndices`: for each local face, the ordered sequence of local
node positions that compose it", "`neighborNodeIndices`: per local node, the
local nodes directly connected by an edge", "`shapeTag`: external format
identifier". -/
structure ShapeDescriptor where
  shapeTag : Nat
  nNodes : Nat
  nFaces : Nat
  nNeighborElements : Nat
  maxNodesFaces : Nat
  faceNodeIndices : List (List Nat)
  neighborNodeIndices : List (List Nat)
  deriving DecidableEq, Repr

/-- Modelled from the spec: the descriptor of the line shape, whose entries are
the constants of `CLineConnectivity`. -/
def lineDescriptor : ShapeDescriptor :=
  { shapeTag := CLineConnectivity.VTK_Type,
    nNodes := CLineConnectivity.nNodes,
    nFaces := CLineConnectivity.nFaces,
    nNeighborElements := CLineConnectivity.nNeighbor_Elements,
    maxNodesFaces := CLineConnectivity.maxNodesFace,
    faceNodeIndices := CLineConnectivity.Faces,
    neighborNodeIndices := CLineConnectivity.Neighbor_Nodes }

/-- Modelled from the spec: the descriptor of the triangle (shape tag 5), whose
class is not under the sources; a face of a 2-D cell is an edge, so the three
faces are the three edges (0,1), (1,2), (2,0). -/
def triangleDescriptor : ShapeDescriptor :=
  { shapeTag := 5, nNodes := 3, nFaces := 3, nNeighborElements := 3, maxNodesFaces := 2,
    faceNodeIndices := [[0, 1], [1, 2], [2, 0]],
    neighborNodeIndices := [[1, 2], [2, 0], [0, 1]] }

/-- Modelled from the spec: the descriptor of the tetrahedron (shape tag 10),
whose class is not under the sources; a face of a 3-D cell is a polygon, so
the four faces are the four node triples. -/
def tetrahedronDescriptor : ShapeDescriptor :=
  { shapeTag := 10, nNodes := 4, nFaces := 4, nNeighborElements := 4, maxNodesFaces := 3,
    faceNodeIndices := [[0, 2, 1], [0, 1, 3], [0, 3, 2], [1, 2, 3]],
    neighborNodeIndices := [[1, 2, 3], [0, 2, 3], [0, 1, 3], [0, 1, 2]] }

/-- Modelled from the spec: `Element` (section 3), whose generic class is not
under the sources: its descriptor (`descriptorRef`) and its "ordered sequence
of global node indices".  The `id` of an element is its position in the
element list (the factory "assigns the next sequential global `id`"), and the
`neighbors` slots of all elements are kept together in `Slots`. -/
structure Element where
  descriptor : ShapeDescriptor
  nodes : List Nat
  deriving DecidableEq, Repr

/-- Modelled from the spec: a face of the mesh, the pair `(ownerElementId,
ownerLocalFaceId)` of the pending records and of the boundary-face list. -/
abbrev FaceRef := Nat × Nat

/-- Modelled from the spec: `FaceKey`, "the sorted tuple of global node indices
forming one face instance of one element; used as a matching key". -/
abbrev FaceKey := List Nat

/-- Modelled from the spec: the value of a neighbor slot that has been set: a
"global element index" or the "boundary sentinel". -/
inductive Neighbor where
  | boundary
  | element (id : Nat)
  deriving DecidableEq, Repr

/-- Modelled from the spec: the `neighbors` slots of all elements, "entirely
unset" at the start: the list of the slots set so far, each with its value; a
slot that is not listed is unset. -/
abbrev Slots := List (FaceRef × Neighbor)

/-- Lookup in an association list: the value of the first entry with key `a`. -/
def assoc {α β : Type} [DecidableEq α] (a : α) : List (α × β) → Option β
  | [] => none
  | (a', b) :: rest => if a' = a then some b else assoc a rest

namespace Element

/-- Modelled from the spec: `GetNode(i)` — "bounds-checked by shape; `i` must
be `< nNodes`, else fails with an IndexError". -/
def GetNode (e : Element) (i : Nat) : Except Error Nat :=
  if i < e.descriptor.nNodes then
    match e.nodes[i]? with
    | some v => .ok v
    | none => .error .IndexError
  else .error .IndexError

/-- Modelled from the spec: `GetFaceNodeGlobalIndices(localFaceId)` — "returns
the global node indices composing that face, in the descriptor's declared
local order; fails with IndexError if `localFaceId >= nFaces`". -/
def GetFaceNodeGlobalIndices (e : Element) (localFaceId : Nat) : Except Error (List Nat) :=
  if localFaceId < e.descriptor.nFaces then
    match e.descriptor.faceNodeIndices[localFaceId]? with
    | some row => row.mapM e.GetNode
    | none => .error .IndexError
  else .error .IndexError

/-- Modelled from the spec: the FaceKey of a local face, "its global node
indices, sorted ascending so two elements sharing the same geometric face
produce an identical key regardless of traversal order". -/
def faceKey (e : Element) (localFaceId : Nat) : Except Error FaceKey :=
  match e.GetFaceNodeGlobalIndices localFaceId with
  | .ok nodes => .ok (nodes.insertionSort (fun a b => a ≤ b))
  | .error err => .error err

/-- Modelled from the spec: step 1 of the adjacency builder for one element —
"for every local face, compute the FaceKey", in the order of the local faces. -/
def faceKeys (e : Element) : Except Error (List FaceKey) :=
  (List.range e.descriptor.nFaces).mapM e.faceKey

/-- Modelled from the spec: the faces of the element with id `id`, in the order
of its local faces, each as the record `(ownerElementId, ownerLocalFaceId)`
with its FaceKey. -/
def faces (id : Nat) (e : Element) : Except Error (List (FaceRef × FaceKey)) :=
  match e.faceKeys with
  | .ok keys => .ok (keys.enum.map (fun p => ((id, p.1), p.2)))
  | .error err => .error err

/-- Follows the spec's words: the FaceKey `key` "occurs as a face" of the
element, that is, it is the FaceKey of one of its local faces. -/
def hasFace (e : Element) (key : FaceKey) : Bool :=
  match e.faceKeys with
  | .ok keys => keys.contains key
  | .error _ => false

/-- The element is well formed for face matching: the FaceKeys of all its local
faces can be computed (every local node index of its face table is in range of
its node list) and they are pairwise distinct (no two local faces of the
element have the same node set).  This is the case for every element that
satisfies the invariants of the data model — `nNodes` distinct global node
indices — in a shape whose faces are distinct sets of local nodes. -/
def facesDistinct (e : Element) : Bool :=
  match e.faceKeys with
  | .ok keys => decide keys.Nodup
  | .error _ => false

end Element

/-- Modelled from the spec: `SetNeighbor(localFaceId, neighborElementId)` on
the element `face.1` — "write-once; fails with a LogicError if the slot was
already set to a different element; setting the same value twice is a
no-op". -/
def SetNeighbor (slots : Slots) (face : FaceRef) (value : Neighbor) : Except Error Slots :=
  match assoc face slots with
  | none => .ok ((face, value) :: slots)
  | some old => if old = value then .ok slots else .error .LogicError

/-- Modelled from the spec: the state of the adjacency builder during its scan:
the mapping "FaceKey → pending record of (ownerElementId, ownerLocalFaceId)",
the keys already consumed by a match (a key seen after it was consumed is
"seen a third time"), and the neighbor slots written so far. -/
structure MatchState where
  pending : List (FaceKey × FaceRef)
  consumed : List FaceKey
  slots : Slots
  deriving DecidableEq, Repr

/-- Modelled from the spec: step 1 of the adjacency builder — "for every
element, for every local face, compute the FaceKey"; `id` is the id of the
first element of the list. -/
def collectFaces : Nat → List Element → Except Error (List (FaceRef × FaceKey))
  | _, [] => .ok []
  | id, e :: rest =>
    match e.faces id with
    | .error err => .error err
    | .ok here =>
      match collectFaces (id + 1) rest with
      | .error err => .error err
      | .ok others => .ok (here ++ others)

/-- Modelled from the spec: steps 2 and 3 of the adjacency builder for one face.
"When a FaceKey is seen the first time, insert the pending record.  When seen
a second time, this is an internal face: call `SetNeighbor` on both owner
elements pointing at each other, then remove the key from the pending map
(consumed).  A FaceKey seen a third time signals a non-manifold mesh ... fatal
to the build" (a TopologyError). -/
def matchFace (st : MatchState) (face : FaceRef × FaceKey) : Except Error MatchState :=
  if face.2 ∈ st.consumed then .error .TopologyError
  else
    match assoc face.2 st.pending with
    | none => .ok { st with pending := (face.2, face.1) :: st.pending }
    | some owner =>
      match SetNeighbor st.slots owner (.element face.1.1) with
      | .error err => .error err
      | .ok slots =>
        match SetNeighbor slots face.1 (.element owner.1) with
        | .error err => .error err
        | .ok slots =>
          .ok { pending := st.pending.filter (fun p => decide (p.1 ≠ face.2)),
                consumed := face.2 :: st.consumed,
                slots := slots }

/-- Modelled from the spec: the scan of the adjacency builder (a "single batch
pass over the whole element set"): `matchFace` on every face in turn; the first
failure ends the scan ("fatal to the build"). -/
def matchFaces : MatchState → List (FaceRef × FaceKey) → Except Error MatchState
  | st, [] => .ok st
  | st, face :: rest =>
    match matchFace st face with
    | .error err => .error err
    | .ok st' => matchFaces st' rest

/-- Modelled from the spec: step 4 of the adjacency builder on the slots — for
every pending record "the owning element's neighbor slot for that local face
is set to the boundary sentinel", through `SetNeighbor`. -/
def markBoundary : Slots → List (FaceKey × FaceRef) → Except Error Slots
  | slots, [] => .ok slots
  | slots, p :: rest =>
    match SetNeighbor slots p.2 .boundary with
    | .error err => .error err
    | .ok slots' => markBoundary slots' rest

/-- Modelled from the spec: the output of the adjacency builder — the neighbor
slots of all elements and the "global boundary-face list: `(ownerElementId,
localFaceId)` pairs not matched to any second element". -/
structure Topology where
  slots : Slots
  boundaryFaces : List FaceRef
  deriving DecidableEq, Repr

/-- Modelled from the spec: `GetNeighbor(localFaceId)` on element `e` —
"returns the neighbor element id or a sentinel meaning boundary / unset". -/
def Topology.GetNeighbor (T : Topology) (e localFaceId : Nat) : Neighbor :=
  match assoc (e, localFaceId) T.slots with
  | some n => n
  | none => .boundary

/-- Modelled from the spec: the Face-Matching / Adjacency Builder (section 4.4),
which is not under the sources: step 1 (`collectFaces`), steps 2 and 3
(`matchFaces`, from the empty state), and step 4 — "every FaceKey still pending
(seen exactly once) marks a boundary face: the owning element's neighbor slot
for that local face is set to the boundary sentinel, and the face is
additionally recorded in the boundary-face list".  Pending faces are taken in
scan order.  A failure is returned "instead of a partial topology". -/
def buildAdjacency (elements : List Element) : Except Error Topology :=
  match collectFaces 0 elements with
  | .error err => .error err
  | .ok faces =>
    match matchFaces { pending := [], consumed := [], slots := [] } faces with
    | .error err => .error err
    | .ok st =>
      match markBoundary st.slots st.pending.reverse with
      | .error err => .error err
      | .ok slots =>
        .ok { slots := slots, boundaryFaces := st.pending.reverse.map (fun p => p.2) }

/-- Follows the spec's words: the number of elements of which the FaceKey `key`
is a face. -/
def elementsWithFace (elements : List Element) (key : FaceKey) : Nat :=
  elements.countP (fun e => e.hasFace key)

/-- Scenario 2 of the spec: triangle A = `[1,2,3]` (id 0) and triangle
B = `[2,1,4]` (id 1). -/
def twoTriangles : List Element :=
  [{ descriptor := triangleDescriptor, nodes := [1, 2, 3] },
   { descriptor := triangleDescriptor, nodes := [2, 1, 4] }]

/-- Scenario 3 of the spec: three tetrahedra which all contain the face
`{1,2,3}`. -/
def threeTetrahedra : List Element :=
  [{ descriptor := tetrahedronDescriptor, nodes := [1, 2, 3, 4] },
   { descriptor := tetrahedronDescriptor, nodes := [1, 2, 3, 5] },
   { descriptor := tetrahedronDescriptor, nodes := [1, 2, 3, 6] }]

/-- The invariant of the scan of the adjacency builder after the faces `done`
have been processed and left the state `st`: no key has been seen more than
twice; the pending records are the faces whose key has been seen once; the
consumed keys are the keys seen twice; every slot written belongs to a face
whose key has been seen twice, and it has a partner slot pointing back across
a face with the same key. -/
structure ScanInv (done : List (FaceRef × FaceKey)) (st : MatchState) : Prop where
  le_two : ∀ k, (done.map Prod.snd).count k ≤ 2
  pend_sound : ∀ k r, (k, r) ∈ st.pending → (r, k) ∈ done ∧ (done.map Prod.snd).count k = 1
  pend_complete : ∀ k, (done.map Prod.snd).count k = 1 → k ∈ st.pending.map Prod.fst
  cons_iff : ∀ k, k ∈ st.consumed ↔ (done.map Prod.snd).count k = 2
  slot_sound : ∀ r n, (r, n) ∈ st.slots → ∃ k, (r, k) ∈ done ∧ (done.map Prod.snd).count k = 2
  slot_sym : ∀ r n, assoc r st.slots = some n →
    ∃ e2 f2 k, n = Neighbor.element e2 ∧ assoc (e2, f2) st.slots = some (Neighbor.element r.1) ∧
      (r, k) ∈ done ∧ ((e2, f2), k) ∈ done

/-- Two lists of local node positions with the same members. -/
def sameNodes (r s : List Nat) : Bool :=
  r.all (fun i => s.contains i) && s.all (fun i => r.contains i)

/-- Follows the spec's words: the invariant of a `ShapeDescriptor` — "all
tables are internally consistent — every index referenced in
`faceNodeIndices` is `< nNodes`", with one row per local face — together with
the fact that distinct local faces of a shape are distinct sets of local
nodes. -/
def ShapeDescriptor.wellFormed (d : ShapeDescriptor) : Bool :=
  decide (d.faceNodeIndices.length = d.nFaces) &&
    d.faceNodeIndices.all (fun row => row.all (fun i => decide (i < d.nNodes))) &&
    (List.range d.nFaces).all (fun f1 => (List.range d.nFaces).all (fun f2 =>
      decide (f1 = f2) ||
        !(sameNodes (d.faceNodeIndices.getD f1 []) (d.faceNodeIndices.getD f2 []))))

/-- Follows the spec's words: the invariant of an `Element` — "`nodes`: ordered
sequence of global node indices, length == descriptor.nNodes, values
distinct" — over a well-formed descriptor. -/
def Element.valid (e : Element) : Bool :=
  decide (e.nodes.length = e.descriptor.nNodes) && decide e.nodes.Nodup &&
    e.descriptor.wellFormed

/-! ## Auxiliary facts about the constructor and the orientation flip -/

theorem CLine.new_nodes (a b : Nat) : (CLine.new a b).Nodes = #[a, b] := rfl

theorem CLine.Change_Orientation_pair (e : CLine) (a b : Nat) (h : e.Nodes = #[a, b]) :
    e.Change_Orientation = { Nodes := #[b, a] } := by
  cases e with
  | mk Nodes =>
    simp only at h
    subst h
    rfl

theorem CLine.Change_Orientation_new (a b : Nat) :
    (CLine.new a b).Change_Orientation = CLine.new b a := rfl

theorem CLine.iterate_Change_Orientation_new (a b : Nat) (n : Nat) :
    CLine.Change_Orientation^[n] (CLine.new a b) = CLine.new a b ∨
      CLine.Change_Orientation^[n] (CLine.new a b) = CLine.new b a := by
  induction n with
  | zero => exact Or.inl rfl
  | succ k ih =>
    rw [Function.iterate_succ_apply']
    rcases ih with h | h
    · exact Or.inr (by rw [h]; rfl)
    · exact Or.inl (by rw [h]; rfl)

/-! ## The orientation flip -/

/-- C1: for every line element whose node array is the pair `(a, b)` (the two
entries may coincide), two successive calls of `Change_Orientation` give back
the element, with exactly the node array it had before the first call. -/
theorem C1_Change_Orientation_involution (e : CLine) (a b : Nat) (h : e.Nodes = #[a, b]) :
    e.Change_Orientation.Change_Orientation = e ∧
      e.Change_Orientation.Change_Orientation.Nodes = e.Nodes := by
  cases e with
  | mk Nodes =>
    simp only at h
    subst h
    exact ⟨rfl, rfl⟩

/-- Instance of C1 at the degenerate element built from the pair `(4, 4)`. -/
theorem C1_Change_Orientation_involution_witness :
    (CLine.new 4 4).Nodes = #[4, 4] ∧
      (CLine.new 4 4).Change_Orientation.Change_Orientation = CLine.new 4 4 ∧
      (CLine.new 4 4).Change_Orientation.Change_Orientation.Nodes = (CLine.new 4 4).Nodes :=
  ⟨by decide, C1_Change_Orientation_involution (CLine.new 4 4) 4 4 (by decide)⟩

/-- C2: the element constructed by `CLine(a, b)` has a node array of length
`nNodes = N_POINTS_LINE = 2`, with `a` at position 0 and `b` at position 1. -/
theorem C2_constructor_stores_nodes_in_order (a b : Nat) :
    (CLine.new a b).Nodes.size = CLine.GetnNodes ∧
      CLine.GetnNodes = CLineConnectivity.nNodes ∧
      CLineConnectivity.nNodes = N_POINTS_LINE ∧ N_POINTS_LINE = 2 ∧
      (CLine.new a b).Nodes[0]? = some a ∧ (CLine.new a b).Nodes[1]? = some b ∧
      (CLine.new a b).GetNode 0 = .ok a ∧ (CLine.new a b).GetNode 1 = .ok b :=
  ⟨rfl, rfl, rfl, rfl, rfl, rfl, rfl, rfl⟩

/-- Instance of C2 at `CLine(5, 9)`: node 0 is 5 and node 1 is 9. -/
theorem C2_constructor_stores_nodes_in_order_witness :
    (CLine.new 5 9).Nodes[0]? = some 5 ∧ (CLine.new 5 9).Nodes[1]? = some 9 :=
  ⟨(C2_constructor_stores_nodes_in_order 5 9).2.2.2.2.1,
    (C2_constructor_stores_nodes_in_order 5 9).2.2.2.2.2.1⟩

/-- C3: for every line element whose node array is `(a, b)`, one call of
`Change_Orientation` yields the element whose node array is `(b, a)`; the
resulting state is exactly that, nothing else is modified. -/
theorem C3_Change_Orientation_swaps (e : CLine) (a b : Nat) (h : e.Nodes = #[a, b]) :
    e.Change_Orientation = { Nodes := #[b, a] } ∧
      e.Change_Orientation.Nodes[0]? = some b ∧ e.Change_Orientation.Nodes[1]? = some a ∧
      e.Change_Orientation.Nodes.size = e.Nodes.size := by
  rw [CLine.Change_Orientation_pair e a b h, h]
  exact ⟨rfl, rfl, rfl, rfl⟩

/-- Instance of C3 at `CLine(5, 9)`: the node array `(5, 9)` becomes `(9, 5)`. -/
theorem C3_Change_Orientation_swaps_witness :
    (CLine.new 5 9).Nodes = #[5, 9] ∧
      (CLine.new 5 9).Change_Orientation = { Nodes := #[9, 5] } ∧
      (CLine.new 5 9).Change_Orientation.Nodes[0]? = some 9 ∧
      (CLine.new 5 9).Change_Orientation.Nodes[1]? = some 5 ∧
      (CLine.new 5 9).Change_Orientation.Nodes.size = (CLine.new 5 9).Nodes.size :=
  ⟨by decide, C3_Change_Orientation_swaps (CLine.new 5 9) 5 9 (by decide)⟩

/-- C4: for every line element with node array `(a, b)` and every local face
`f < nFaces`, the global node indices of face `f` (the row `Faces[f]` mapped
through the node array) are available before and after `Change_Orientation`,
and they form the same set of global node indices. -/
theorem C4_Change_Orientation_preserves_face_node_sets (e : CLine) (a b f : Nat)
    (h : e.Nodes = #[a, b]) (hf : f < CLine.GetnFaces) :
    ∃ s t : List Nat, e.GetFaceNodeGlobalIndices f = .ok s ∧
      e.Change_Orientation.GetFaceNodeGlobalIndices f = .ok t ∧
      s.toFinset = t.toFinset ∧ ∀ x, x ∈ s ↔ x ∈ t := by
  have hf0 : f = 0 := by
    have : f < 1 := hf
    omega
  subst hf0
  rw [CLine.Change_Orientation_pair e a b h]
  cases e with
  | mk Nodes =>
    simp only at h
    subst h
    refine ⟨[a, b], [b, a], rfl, rfl, ?_, ?_⟩
    · ext x
      simp [or_comm]
    · intro x
      simp [or_comm]

/-- Instance of C4 at `CLine(5, 9)` and its only face, face 0. -/
theorem C4_Change_Orientation_preserves_face_node_sets_witness :
    (CLine.new 5 9).Nodes = #[5, 9] ∧ 0 < CLine.GetnFaces ∧
      ∃ s t : List Nat, (CLine.new 5 9).GetFaceNodeGlobalIndices 0 = .ok s ∧
        (CLine.new 5 9).Change_Orientation.GetFaceNodeGlobalIndices 0 = .ok t ∧
        s.toFinset = t.toFinset ∧ ∀ x, x ∈ s ↔ x ∈ t :=
  ⟨by decide, by decide,
    C4_Change_Orientation_preserves_face_node_sets (CLine.new 5 9) 5 9 0 (by decide) (by decide)⟩

/-- C5: for the element constructed from any pair `(a, b)` and any number `n`
of successive calls of `Change_Orientation`, the node array afterwards has the
same length as before (namely `nNodes`) and is a permutation of it: the same
multiset of global node indices. -/
theorem C5_Change_Orientation_only_reorders (a b n : Nat) :
    (CLine.Change_Orientation^[n] (CLine.new a b)).Nodes.size = (CLine.new a b).Nodes.size ∧
      (CLine.Change_Orientation^[n] (CLine.new a b)).Nodes.size = CLine.GetnNodes ∧
      (CLine.Change_Orientation^[n] (CLine.new a b)).Nodes.toList.Perm
        (CLine.new a b).Nodes.toList ∧
      (Multiset.ofList (CLine.Change_Orientation^[n] (CLine.new a b)).Nodes.toList
        = Multiset.ofList (CLine.new a b).Nodes.toList) := by
  have hswap : [b, a].Perm [a, b] := List.Perm.swap a b []
  rcases CLine.iterate_Change_Orientation_new a b n with h | h
  · rw [h]
    exact ⟨rfl, rfl, List.Perm.refl _, rfl⟩
  · rw [h]
    refine ⟨rfl, rfl, ?_, ?_⟩
    · simpa [CLine.new_nodes] using hswap
    · rw [Multiset.coe_eq_coe]
      simpa [CLine.new_nodes] using hswap

/-! ## The constructor performs no validation -/

/-- C6, as stated, fails: `CLine(7, 7)` yields an element, with node array
`(7, 7)`, whose entries are not pairwise distinct. -/
theorem C6_duplicate_pair_is_accepted :
    (CLine.new 7 7).Nodes = #[7, 7] ∧ (CLine.new 7 7).Nodes.size = CLine.GetnNodes ∧
      ¬ (CLine.new 7 7).Nodes.toList.Nodup := by
  decide

/-- C6, amended: for all `a` and `b` the constructor yields an element whose
node array is `(a, b)`, without any validation; its entries are pairwise
distinct exactly when `a ≠ b`. -/
theorem C6_constructor_distinct_iff (a b : Nat) :
    (CLine.new a b).Nodes = #[a, b] ∧
      ((CLine.new a b).Nodes.toList.Nodup ↔ a ≠ b) := by
  refine ⟨rfl, ?_⟩
  rw [CLine.new_nodes]
  simp

/-! ## Internal consistency of the line descriptor -/

/-- C7: the line descriptor declares exactly one face: `nFaces = 1`, the table
`Faces` has one row, and that row is the pair of local nodes `(0, 1)`, whose
members are exactly the local nodes of the line (those below `nNodes`). -/
theorem C7_line_has_one_face_of_both_endpoints :
    CLineConnectivity.nFaces = 1 ∧ CLineConnectivity.Faces.length = 1 ∧
      CLineConnectivity.Faces[0]? = some [0, 1] ∧
      CLine.GetFaces 0 0 = some 0 ∧ CLine.GetFaces 0 1 = some 1 ∧
      CLine.GetFaces 0 2 = none ∧
      (∀ i : Nat, i ∈ CLineConnectivity.Faces.getD 0 [] ↔ i < CLineConnectivity.nNodes) := by
  refine ⟨rfl, rfl, rfl, rfl, rfl, rfl, ?_⟩
  intro i
  simp only [CLineConnectivity.Faces, CLineConnectivity.nNodes, N_POINTS_LINE, List.getD_cons_zero,
    List.mem_cons, List.mem_singleton, List.not_mem_nil, or_false]
  omega

/-- C8: every local node index listed in `Faces` and in `Neighbor_Nodes` is
below `nNodes = 2`; and for the element constructed from any pair `(a, b)`,
every local face `f < nFaces` and every position `k < nNodesFace[f]`, the entry
`Faces[f][k]` exists, is below `nNodes`, and the lookup of the global node
`Nodes[Faces[f][k]]` succeeds. -/
theorem C8_descriptor_indices_in_range (a b f k : Nat) (hf : f < CLineConnectivity.nFaces)
    (hk : k < CLineConnectivity.nNodesFace.getD f 0) :
    CLineConnectivity.nNodes = 2 ∧
      (∀ row ∈ CLineConnectivity.Faces, ∀ i ∈ row, i < CLineConnectivity.nNodes) ∧
      (∀ row ∈ CLineConnectivity.Neighbor_Nodes, ∀ i ∈ row, i < CLineConnectivity.nNodes) ∧
      ∃ i v : Nat, CLine.GetFaces f k = some i ∧ i < CLineConnectivity.nNodes ∧
        (CLine.new a b).Nodes[i]? = some v ∧ (CLine.new a b).GetNode i = .ok v := by
  refine ⟨rfl, by decide, by decide, ?_⟩
  have hf0 : f = 0 := by
    have : f < 1 := hf
    omega
  subst hf0
  have hk2 : k < 2 := hk
  have hk01 : k = 0 ∨ k = 1 := by omega
  rcases hk01 with h | h
  · subst h
    exact ⟨0, a, rfl, by decide, rfl, rfl⟩
  · subst h
    exact ⟨1, b, rfl, by decide, rfl, rfl⟩

/-- Instance of C8 at `CLine(5, 9)`, face 0, position 1: the lookup yields 9. -/
theorem C8_descriptor_indices_in_range_witness :
    0 < CLineConnectivity.nFaces ∧ 1 < CLineConnectivity.nNodesFace.getD 0 0 ∧
      CLineConnectivity.nNodes = 2 ∧
      (∀ row ∈ CLineConnectivity.Faces, ∀ i ∈ row, i < CLineConnectivity.nNodes) ∧
      (∀ row ∈ CLineConnectivity.Neighbor_Nodes, ∀ i ∈ row, i < CLineConnectivity.nNodes) ∧
      ∃ i v : Nat, CLine.GetFaces 0 1 = some i ∧ i < CLineConnectivity.nNodes ∧
        (CLine.new 5 9).Nodes[i]? = some v ∧ (CLine.new 5 9).GetNode i = .ok v :=
  ⟨by decide, by decide, C8_descriptor_indices_in_range 5 9 0 1 (by decide) (by decide)⟩

/-- C9: the tables `Faces` and `nNodesFace` have one entry per local face, for
every local face `f` the row `Faces[f]` has `nNodesFace[f]` entries, and
`maxNodesFace` is the maximum of `nNodesFace`; both are 2 for the single
face. -/
theorem C9_face_sizes_consistent :
    CLineConnectivity.Faces.length = CLineConnectivity.nFaces ∧
      CLineConnectivity.nNodesFace.length = CLineConnectivity.nFaces ∧
      (∀ f : Fin CLineConnectivity.nFaces,
        (CLineConnectivity.Faces[f.val]?).map List.length = CLineConnectivity.nNodesFace[f.val]? ∧
        (CLineConnectivity.Faces[f.val]?).isSome = true) ∧
      CLineConnectivity.nNodesFace.max? = some CLineConnectivity.maxNodesFace ∧
      CLineConnectivity.nNodesFace[0]? = some 2 ∧ CLineConnectivity.maxNodesFace = 2 := by
  decide

/-- C10: for every local node `i` of the line, `Neighbor_Nodes[i]` lists exactly
the local nodes `j ≠ i` that share an edge with `i` (node 0 lists only node 1,
node 1 lists only node 0), without repetition; `nNeighbor_Nodes[i]` is the
length of that list; and the relation is symmetric. -/
theorem C10_neighbor_nodes_are_edge_neighbors :
    CLineConnectivity.Neighbor_Nodes.length = CLineConnectivity.nNodes ∧
      CLineConnectivity.nNeighbor_Nodes.length = CLineConnectivity.nNodes ∧
      (∀ (i : Fin CLineConnectivity.nNodes) (j : Nat),
        j ∈ CLineConnectivity.Neighbor_Nodes.getD i.val [] ↔
          (j ≠ i.val ∧ CLine.sharesEdge i.val j = true)) ∧
      CLineConnectivity.Neighbor_Nodes[0]? = some [1] ∧
      CLineConnectivity.Neighbor_Nodes[1]? = some [0] ∧
      (∀ i : Fin CLineConnectivity.nNodes,
        (CLineConnectivity.Neighbor_Nodes.getD i.val []).Nodup ∧
        CLineConnectivity.nNeighbor_Nodes[i.val]? =
          some (CLineConnectivity.Neighbor_Nodes.getD i.val []).length) ∧
      (∀ i j : Fin CLineConnectivity.nNodes,
        j.val ∈ CLineConnectivity.Neighbor_Nodes.getD i.val [] ↔
          i.val ∈ CLineConnectivity.Neighbor_Nodes.getD j.val []) := by
  refine ⟨rfl, rfl, ?_, rfl, rfl, by decide, by decide⟩
  intro i j
  have hi : i.val = 0 ∨ i.val = 1 := by
    have : i.val < 2 := i.isLt
    omega
  rcases hi with h | h
  · rw [h]
    simp only [CLineConnectivity.Neighbor_Nodes, CLine.sharesEdge, CLineConnectivity.Faces,
      List.getD_cons_zero, List.mem_singleton]
    constructor
    · intro hj
      subst hj
      decide
    · intro hj
      by_contra hne
      have h1 := hj.1
      have h2 := hj.2
      simp at h2
      omega
  · rw [h]
    simp only [CLineConnectivity.Neighbor_Nodes, CLine.sharesEdge, CLineConnectivity.Faces,
      List.getD_cons_succ, List.getD_cons_zero, List.mem_singleton]
    constructor
    · intro hj
      subst hj
      decide
    · intro hj
      by_contra hne
      have h1 := hj.1
      have h2 := hj.2
      simp at h2
      omega

/-! ## Further constants of the line descriptor -/

/-- C11: the line descriptor provides one neighbor-element slot per local
face: `nNeighbor_Elements` equals `nFaces`, both are 1 (`N_FACES_LINE = 1`),
and the table `Faces` has one row. -/
theorem C11_one_neighbor_slot_per_face :
    CLineConnectivity.nNeighbor_Elements = CLineConnectivity.nFaces ∧
      CLineConnectivity.nNeighbor_Elements = 1 ∧ CLineConnectivity.nFaces = 1 ∧
      CLineConnectivity.nFaces = N_FACES_LINE ∧ N_FACES_LINE = 1 ∧
      CLineConnectivity.Faces.length = CLineConnectivity.nNeighbor_Elements :=
  ⟨rfl, rfl, rfl, rfl, rfl, rfl⟩

/-- C12: the shape tag of the line descriptor is `VTK_Type = 3`, and it is
none of the tags 5, 9, 10, 12, 13, 14 of the other supported shapes. -/
theorem C12_line_shape_tag :
    CLineConnectivity.VTK_Type = 3 ∧ otherShapeTags = [5, 9, 10, 12, 13, 14] ∧
      CLineConnectivity.VTK_Type ∉ otherShapeTags ∧
      ∀ t ∈ otherShapeTags, t ≠ CLineConnectivity.VTK_Type := by
  decide

/-! ## History output of the compressible solver -/

/-- C15: for every time-marching mode and every inner-iteration counter,
`SetInit_Residuals` is true exactly when (the mode is `STEADY` and
`curInnerIter < 2`) or (the mode is not `STEADY` and `curInnerIter = 0`); it is
true at inner iteration 0 in every mode and false at every inner iteration
`curInnerIter + 2`, that is at every iteration `≥ 2`, in every mode. -/
theorem C15_SetInit_Residuals_iff {TM : Type} [DecidableEq TM] (STEADY mode : TM)
    (curInnerIter : Nat) :
    (CFlowCompOutput.SetInit_Residuals STEADY mode curInnerIter = true ↔
        ((mode = STEADY ∧ curInnerIter < 2) ∨ (mode ≠ STEADY ∧ curInnerIter = 0))) ∧
      CFlowCompOutput.SetInit_Residuals STEADY mode 0 = true ∧
      CFlowCompOutput.SetInit_Residuals STEADY mode (curInnerIter + 2) = false := by
  unfold CFlowCompOutput.SetInit_Residuals
  by_cases hm : mode = STEADY
  · simp [hm]
  · simp [hm]

/-- C16: for `nDim` 2 or 3 and every configuration, every history field name
that `LoadHistoryData` sets directly through `SetHistoryOutputValue` is among
the names that `SetHistoryOutputFields` registers directly through
`AddHistoryOutput` under the same configuration and `nDim`. -/
theorem C16_directly_set_fields_are_registered (config : CConfig) (multiZone : Bool)
    (nDim : Nat) (h : nDim = 2 ∨ nDim = 3) :
    ∀ name ∈ CFlowCompOutput.LoadHistoryData config multiZone nDim,
      name ∈ CFlowCompOutput.SetHistoryOutputFields config nDim := by
  obtain ⟨td, fcl, dm, vis, ae, ea, iz, vf, sf, rf, tm⟩ := config
  unfold CFlowCompOutput.LoadHistoryData CFlowCompOutput.SetHistoryOutputFields
  rcases h with h | h <;> subst h <;> cases fcl <;> cases dm <;> cases vis <;>
    cases multiZone <;> dsimp only <;> decide

/-- Instance of C16: three dimensions, a multizone, viscous, fixed-CL run with
mesh deformation; the directly set name `BGS_MOMENTUM-Z` is registered. -/
theorem C16_directly_set_fields_are_registered_witness :
    "BGS_MOMENTUM-Z" ∈ CFlowCompOutput.SetHistoryOutputFields
      { Time_Domain := false, Fixed_CL_Mode := true, Deform_Mesh := true, Viscous := true,
        Aeroelastic_Simulation := false, EquivArea := false, iZone := 0,
        Volume_FileName := "flow", SurfCoeff_FileName := "surface_flow",
        Restart_FileName := "restart_flow.dat", Kind_Turb_Model := 0 } 3 :=
  C16_directly_set_fields_are_registered _ true 3 (Or.inr rfl) "BGS_MOMENTUM-Z" (by decide)

/-! ## The constructor of the compressible-flow output -/

theorem CFlowCompOutput.findLIFT_long (convFields : List String)
    (hlen : 65536 ≤ convFields.length) (fuel : Nat) :
    ∀ (iField : Nat) (found : Bool), iField < 65536 →
      CFlowCompOutput.findLIFT convFields fuel iField found = none := by
  induction fuel with
  | zero => intro iField found _; rfl
  | succ n ih =>
    intro iField found hi
    have hlt : iField < convFields.length := by omega
    rw [CFlowCompOutput.findLIFT, dif_pos hlt]
    exact ih _ _ (Nat.mod_lt _ (by decide))

theorem CFlowCompOutput.findLIFT_result (convFields : List String) (fuel : Nat) :
    ∀ (iField : Nat) (found r : Bool), iField < 65536 →
      CFlowCompOutput.findLIFT convFields fuel iField found = some r →
      r = (found || (convFields.drop iField).contains "LIFT") := by
  induction fuel with
  | zero => intro iField found r _ h; simp [CFlowCompOutput.findLIFT] at h
  | succ n ih =>
    intro iField found r hi h
    rw [CFlowCompOutput.findLIFT] at h
    by_cases hlt : iField < convFields.length
    · rw [dif_pos hlt] at h
      by_cases hwrap : iField + 1 < 65536
      · rw [Nat.mod_eq_of_lt hwrap] at h
        have hr := ih _ _ _ hwrap h
        have hmem : (convFields.drop iField).contains "LIFT" =
            (("LIFT" == convFields[iField]) || (convFields.drop (iField + 1)).contains "LIFT") := by
          conv_lhs => rw [List.drop_eq_getElem_cons hlt]
          exact List.contains_cons
        rw [hr, hmem]
        by_cases hL : convFields[iField] = "LIFT"
        · simp [hL]
        · have hL2 : ("LIFT" == convFields[iField]) = false := by
            simp only [beq_eq_false_iff_ne, ne_eq]
            exact fun hc => hL hc.symm
          rw [hL2, if_neg hL]
          simp
      · have hlong : 65536 ≤ convFields.length := by omega
        rw [CFlowCompOutput.findLIFT_long convFields hlong n _ _ (Nat.mod_lt _ (by decide))] at h
        simp at h
    · rw [dif_neg hlt] at h
      have hd : convFields.drop iField = [] := List.drop_eq_nil_of_le (by omega)
      simp only [Option.some.injEq] at h
      simp [hd, h]

theorem CFlowCompOutput.findLIFT_terminates (convFields : List String)
    (hlen : convFields.length < 65536) (fuel : Nat) :
    ∀ (iField : Nat) (found : Bool), iField ≤ convFields.length →
      convFields.length - iField < fuel →
      ∃ r, CFlowCompOutput.findLIFT convFields fuel iField found = some r := by
  induction fuel with
  | zero => intro iField found _ h; omega
  | succ n ih =>
    intro iField found hi hfuel
    rw [CFlowCompOutput.findLIFT]
    by_cases hlt : iField < convFields.length
    · rw [dif_pos hlt, Nat.mod_eq_of_lt (by omega)]
      exact ih _ _ (by omega) (by omega)
    · rw [dif_neg hlt]
      exact ⟨found, rfl⟩

theorem CFlowCompOutput.findLIFT_eq (convFields : List String) (fuel : Nat) (r : Bool)
    (h : CFlowCompOutput.findLIFT convFields fuel 0 false = some r) :
    r = convFields.contains "LIFT" := by
  have := CFlowCompOutput.findLIFT_result convFields fuel 0 false r (by decide) h
  simpa using this

theorem CFlowCompOutput.setDefaultHistoryFields_eq {R : Type} (s : CFlowCompOutput.State R) :
    CFlowCompOutput.setDefaultHistoryFields s =
      { s with
        requestedHistoryFields :=
          if s.nRequestedHistoryFields = 0 then s.requestedHistoryFields ++ ["ITER", "RMS_RES"]
          else s.requestedHistoryFields,
        nRequestedHistoryFields :=
          if s.nRequestedHistoryFields = 0 then
            CFlowCompOutput.wrap16 (s.requestedHistoryFields ++ ["ITER", "RMS_RES"]).length
          else s.nRequestedHistoryFields } := by
  unfold CFlowCompOutput.setDefaultHistoryFields
  split_ifs <;> simp

theorem CFlowCompOutput.setDefaultScreenFields_eq {R : Type} (config : CConfig)
    (s : CFlowCompOutput.State R) :
    CFlowCompOutput.setDefaultScreenFields config s =
      { s with
        requestedScreenFields :=
          if s.nRequestedScreenFields = 0 then
            s.requestedScreenFields ++ (if config.Time_Domain then ["TIME_ITER"] else [])
              ++ (if s.multiZone then ["OUTER_ITER"] else [])
              ++ ["INNER_ITER", "RMS_DENSITY", "RMS_MOMENTUM-X", "RMS_MOMENTUM-Y", "RMS_ENERGY"]
          else s.requestedScreenFields,
        nRequestedScreenFields :=
          if s.nRequestedScreenFields = 0 then
            CFlowCompOutput.wrap16
              (s.requestedScreenFields ++ (if config.Time_Domain then ["TIME_ITER"] else [])
                ++ (if s.multiZone then ["OUTER_ITER"] else [])
                ++ ["INNER_ITER", "RMS_DENSITY", "RMS_MOMENTUM-X", "RMS_MOMENTUM-Y",
                    "RMS_ENERGY"]).length
          else s.nRequestedScreenFields } := by
  unfold CFlowCompOutput.setDefaultScreenFields
  split_ifs <;> simp

theorem CFlowCompOutput.setDefaultVolumeFields_eq {R : Type} (s : CFlowCompOutput.State R) :
    CFlowCompOutput.setDefaultVolumeFields s =
      { s with
        requestedVolumeFields :=
          if s.nRequestedVolumeFields = 0 then
            s.requestedVolumeFields ++ ["COORDINATES", "SOLUTION", "PRIMITIVE"]
          else s.requestedVolumeFields,
        nRequestedVolumeFields :=
          if s.nRequestedVolumeFields = 0 then
            CFlowCompOutput.wrap16
              (s.requestedVolumeFields ++ ["COORDINATES", "SOLUTION", "PRIMITIVE"]).length
          else s.nRequestedVolumeFields } := by
  unfold CFlowCompOutput.setDefaultVolumeFields
  split_ifs <;> simp

theorem CFlowCompOutput.addGridVelocity_eq {R : Type} (s : CFlowCompOutput.State R) :
    CFlowCompOutput.addGridVelocity s =
      { s with
        requestedVolumeFields :=
          if s.gridMovement = true ∧ "GRID_VELOCITY" ∉ s.requestedVolumeFields then
            s.requestedVolumeFields ++ ["GRID_VELOCITY"]
          else s.requestedVolumeFields,
        nRequestedVolumeFields :=
          if s.gridMovement = true ∧ "GRID_VELOCITY" ∉ s.requestedVolumeFields then
            CFlowCompOutput.wrap16 (s.nRequestedVolumeFields + 1)
          else s.nRequestedVolumeFields } := by
  unfold CFlowCompOutput.addGridVelocity
  by_cases hg : s.gridMovement = true
  · by_cases hm : "GRID_VELOCITY" ∈ s.requestedVolumeFields
    · have hc : s.requestedVolumeFields.contains "GRID_VELOCITY" = true := by simpa using hm
      have hn : ¬ (s.gridMovement = true ∧ "GRID_VELOCITY" ∉ s.requestedVolumeFields) :=
        fun h => h.2 hm
      rw [if_pos hg, if_pos hc, if_neg hn, if_neg hn]
    · have hc : ¬ s.requestedVolumeFields.contains "GRID_VELOCITY" = true := by simpa using hm
      have hn : s.gridMovement = true ∧ "GRID_VELOCITY" ∉ s.requestedVolumeFields := ⟨hg, hm⟩
      rw [if_pos hg, if_neg hc, if_pos hn, if_pos hn]
  · have hn : ¬ (s.gridMovement = true ∧ "GRID_VELOCITY" ∉ s.requestedVolumeFields) :=
      fun h => hg h.1
    rw [if_neg hg, if_neg hn, if_neg hn]

theorem CFlowCompOutput.setDefaultConvField_eq {R : Type} (s : CFlowCompOutput.State R) :
    CFlowCompOutput.setDefaultConvField s =
      { s with convFields := if s.convFields = [] then ["RMS_DENSITY"] else s.convFields } := by
  unfold CFlowCompOutput.setDefaultConvField
  by_cases hc : s.convFields = []
  · simp [hc]
  · simp [hc]

theorem CFlowCompOutput.new_eq {R : Type} (zero : R) (fuel : Nat) (config : CConfig)
    (s : CFlowCompOutput.State R) :
    CFlowCompOutput.new zero fuel config s =
      CFlowCompOutput.addLIFT zero fuel config
        (CFlowCompOutput.setDefaultConvField (CFlowCompOutput.setNames config
          (CFlowCompOutput.addGridVelocity (CFlowCompOutput.setDefaultVolumeFields
            (CFlowCompOutput.setDefaultScreenFields config
              (CFlowCompOutput.setDefaultHistoryFields
                { s with turb_model := config.Kind_Turb_Model })))))) := rfl

theorem CFlowCompOutput.prepared_fields {R : Type} (config : CConfig)
    (s t : CFlowCompOutput.State R)
    (ht : t = CFlowCompOutput.setDefaultConvField (CFlowCompOutput.setNames config
          (CFlowCompOutput.addGridVelocity (CFlowCompOutput.setDefaultVolumeFields
            (CFlowCompOutput.setDefaultScreenFields config
              (CFlowCompOutput.setDefaultHistoryFields
                { s with turb_model := config.Kind_Turb_Model })))))) :
    t.requestedHistoryFields =
        (if s.nRequestedHistoryFields = 0 then s.requestedHistoryFields ++ ["ITER", "RMS_RES"]
          else s.requestedHistoryFields) ∧
      t.nRequestedHistoryFields =
        (if s.nRequestedHistoryFields = 0 then
            CFlowCompOutput.wrap16 (s.requestedHistoryFields ++ ["ITER", "RMS_RES"]).length
          else s.nRequestedHistoryFields) ∧
      t.requestedScreenFields =
        (if s.nRequestedScreenFields = 0 then
            s.requestedScreenFields ++ (if config.Time_Domain then ["TIME_ITER"] else [])
              ++ (if s.multiZone then ["OUTER_ITER"] else [])
              ++ ["INNER_ITER", "RMS_DENSITY", "RMS_MOMENTUM-X", "RMS_MOMENTUM-Y", "RMS_ENERGY"]
          else s.requestedScreenFields) ∧
      t.nRequestedScreenFields =
        (if s.nRequestedScreenFields = 0 then
            CFlowCompOutput.wrap16
              (s.requestedScreenFields ++ (if config.Time_Domain then ["TIME_ITER"] else [])
                ++ (if s.multiZone then ["OUTER_ITER"] else [])
                ++ ["INNER_ITER", "RMS_DENSITY", "RMS_MOMENTUM-X", "RMS_MOMENTUM-Y",
                    "RMS_ENERGY"]).length
          else s.nRequestedScreenFields) ∧
      t.requestedVolumeFields =
        (CFlowCompOutput.addGridVelocity (CFlowCompOutput.setDefaultVolumeFields s)).requestedVolumeFields ∧
      t.nRequestedVolumeFields =
        (CFlowCompOutput.addGridVelocity (CFlowCompOutput.setDefaultVolumeFields s)).nRequestedVolumeFields ∧
      t.convFields = (if s.convFields = [] then ["RMS_DENSITY"] else s.convFields) ∧
      t.newFunc = s.newFunc ∧ t.oldFunc = s.oldFunc ∧ t.cauchySerie = s.cauchySerie ∧
      t.nCauchy_Elems = s.nCauchy_Elems := by
  subst ht
  simp only [CFlowCompOutput.setDefaultConvField_eq, CFlowCompOutput.setNames,
    CFlowCompOutput.addGridVelocity_eq, CFlowCompOutput.setDefaultVolumeFields_eq,
    CFlowCompOutput.setDefaultScreenFields_eq, CFlowCompOutput.setDefaultHistoryFields_eq,
    and_self]

theorem CFlowCompOutput.vector_resize_length {α : Type} (v : List α) (n : Nat) (val : α) :
    (CFlowCompOutput.vector_resize v n val).length = n := by
  unfold CFlowCompOutput.vector_resize
  split_ifs with h
  · simp [h]
  · simp
    omega

theorem CFlowCompOutput.addLIFT_cases {R : Type} (zero : R) (fuel : Nat) (config : CConfig)
    (t s' : CFlowCompOutput.State R) (h : CFlowCompOutput.addLIFT zero fuel config t = some s') :
    (config.Fixed_CL_Mode = false ∧ s' = t) ∨
      (config.Fixed_CL_Mode = true ∧ "LIFT" ∈ t.convFields ∧ s' = t) ∨
      (config.Fixed_CL_Mode = true ∧ "LIFT" ∉ t.convFields ∧
        s' = { t with
          convFields := t.convFields ++ ["LIFT"],
          newFunc := CFlowCompOutput.vector_resize t.newFunc (t.convFields ++ ["LIFT"]).length zero,
          oldFunc := CFlowCompOutput.vector_resize t.oldFunc (t.convFields ++ ["LIFT"]).length zero,
          cauchySerie := CFlowCompOutput.vector_resize t.cauchySerie
            (t.convFields ++ ["LIFT"]).length (List.replicate t.nCauchy_Elems zero) }) := by
  unfold CFlowCompOutput.addLIFT at h
  by_cases hc : config.Fixed_CL_Mode = true
  · rw [if_pos hc] at h
    cases hf : CFlowCompOutput.findLIFT t.convFields fuel 0 false with
    | none => rw [hf] at h; simp at h
    | some found =>
      rw [hf] at h
      have hfound := CFlowCompOutput.findLIFT_eq t.convFields fuel found hf
      cases found with
      | true =>
        simp only [Bool.not_true, Bool.false_eq_true, if_false, Option.some.injEq] at h
        refine Or.inr (Or.inl ⟨hc, ?_, h.symm⟩)
        simpa using hfound.symm
      | false =>
        simp only [Bool.not_false, if_true, Option.some.injEq] at h
        refine Or.inr (Or.inr ⟨hc, ?_, h.symm⟩)
        have := hfound.symm
        simpa using this
  · rw [if_neg hc] at h
    simp only [Option.some.injEq] at h
    exact Or.inl ⟨by simpa using hc, h.symm⟩

theorem CFlowCompOutput.addLIFT_terminates {R : Type} (zero : R) (fuel : Nat) (config : CConfig)
    (t : CFlowCompOutput.State R) (hlen : t.convFields.length < 65536)
    (hfuel : t.convFields.length < fuel) :
    ∃ s', CFlowCompOutput.addLIFT zero fuel config t = some s' := by
  unfold CFlowCompOutput.addLIFT
  obtain ⟨r, hr⟩ := CFlowCompOutput.findLIFT_terminates t.convFields hlen fuel 0 false
    (Nat.zero_le _) (by omega)
  rw [hr]
  by_cases hc : config.Fixed_CL_Mode = true
  · rw [if_pos hc]
    cases r with
    | true => exact ⟨_, rfl⟩
    | false => exact ⟨_, rfl⟩
  · rw [if_neg hc]
    exact ⟨_, rfl⟩

theorem CFlowCompOutput.new_terminates {R : Type} (zero : R) (fuel : Nat) (config : CConfig)
    (s : CFlowCompOutput.State R) (hlen : s.convFields.length < 65536)
    (hfuel : s.convFields.length + 2 ≤ fuel) :
    ∃ s', CFlowCompOutput.new zero fuel config s = some s' := by
  rw [CFlowCompOutput.new_eq]
  have hp := CFlowCompOutput.prepared_fields config s _ rfl
  have hconv := hp.2.2.2.2.2.2.1
  apply CFlowCompOutput.addLIFT_terminates
  · rw [hconv]
    split_ifs with h0
    · simp
    · exact hlen
  · rw [hconv]
    split_ifs with h0
    · simp
      omega
    · omega

theorem CFlowCompOutput.addLIFT_requested {R : Type} (zero : R) (fuel : Nat) (config : CConfig)
    (t s' : CFlowCompOutput.State R) (h : CFlowCompOutput.addLIFT zero fuel config t = some s') :
    s'.requestedHistoryFields = t.requestedHistoryFields ∧
      s'.nRequestedHistoryFields = t.nRequestedHistoryFields ∧
      s'.requestedScreenFields = t.requestedScreenFields ∧
      s'.nRequestedScreenFields = t.nRequestedScreenFields ∧
      s'.requestedVolumeFields = t.requestedVolumeFields ∧
      s'.nRequestedVolumeFields = t.nRequestedVolumeFields := by
  rcases CFlowCompOutput.addLIFT_cases zero fuel config t s' h with ⟨-, h⟩ | ⟨-, -, h⟩ | ⟨-, -, h⟩ <;>
    subst h <;> exact ⟨rfl, rfl, rfl, rfl, rfl, rfl⟩

theorem CFlowCompOutput.wrap16_of_lt (n : Nat) (h : n < 65536) : CFlowCompOutput.wrap16 n = n :=
  Nat.mod_eq_of_lt h

theorem CFlowCompOutput.volume_fields_after {R : Type} (s : CFlowCompOutput.State R)
    (hV : s.nRequestedVolumeFields = s.requestedVolumeFields.length)
    (hfit : s.gridMovement = true → "GRID_VELOCITY" ∉ s.requestedVolumeFields →
      s.requestedVolumeFields.length < 65535) :
    (CFlowCompOutput.addGridVelocity (CFlowCompOutput.setDefaultVolumeFields s)).nRequestedVolumeFields
        = (CFlowCompOutput.addGridVelocity
            (CFlowCompOutput.setDefaultVolumeFields s)).requestedVolumeFields.length ∧
      (CFlowCompOutput.addGridVelocity
        (CFlowCompOutput.setDefaultVolumeFields s)).requestedVolumeFields ≠ [] ∧
      (s.requestedVolumeFields = [] → ["COORDINATES", "SOLUTION", "PRIMITIVE"] <+:
        (CFlowCompOutput.addGridVelocity
          (CFlowCompOutput.setDefaultVolumeFields s)).requestedVolumeFields) := by
  rw [CFlowCompOutput.addGridVelocity_eq, CFlowCompOutput.setDefaultVolumeFields_eq]
  dsimp only
  by_cases hn : s.nRequestedVolumeFields = 0
  · have hnil : s.requestedVolumeFields = [] := by
      rw [hn] at hV
      exact List.length_eq_zero.mp hV.symm
    simp only [hn, if_true, hnil, List.nil_append, List.length_cons, List.length_nil]
    have h3 : CFlowCompOutput.wrap16 (0 + 1 + 1 + 1) = 3 := rfl
    have h4 : CFlowCompOutput.wrap16 (3 + 1) = 4 := rfl
    rw [h3]
    by_cases hg : s.gridMovement = true
    · have hc : s.gridMovement = true ∧
          "GRID_VELOCITY" ∉ ["COORDINATES", "SOLUTION", "PRIMITIVE"] := ⟨hg, by decide⟩
      rw [if_pos hc, if_pos hc, h4]
      refine ⟨rfl, by simp, fun _ => ?_⟩
      exact ⟨["GRID_VELOCITY"], rfl⟩
    · have hc : ¬ (s.gridMovement = true ∧
          "GRID_VELOCITY" ∉ ["COORDINATES", "SOLUTION", "PRIMITIVE"]) := fun h => hg h.1
      rw [if_neg hc, if_neg hc]
      exact ⟨rfl, by simp, fun _ => List.prefix_refl _⟩
  · have hne : s.requestedVolumeFields ≠ [] := by
      intro hnil
      rw [hnil] at hV
      exact hn hV
    simp only [hn, if_false]
    by_cases hc : s.gridMovement = true ∧ "GRID_VELOCITY" ∉ s.requestedVolumeFields
    · have hlt := hfit hc.1 hc.2
      rw [if_pos hc, if_pos hc, hV, CFlowCompOutput.wrap16_of_lt _ (by omega)]
      refine ⟨by simp, by simp, fun hnil => absurd hnil hne⟩
    · rw [if_neg hc, if_neg hc]
      exact ⟨hV, hne, fun hnil => absurd hnil hne⟩

/-- C17, as stated, fails: on entry every counter of `fullVolumeState` equals the
length of its list (0, 0 and 65535); the constructor returns, and on return the
volume-field list has 65536 entries while the 16-bit counter
`nRequestedVolumeFields` has wrapped to 0. -/
theorem C17_volume_counter_wraps :
    CFlowCompOutput.fullVolumeState.nRequestedHistoryFields
        = CFlowCompOutput.fullVolumeState.requestedHistoryFields.length ∧
      CFlowCompOutput.fullVolumeState.nRequestedScreenFields
        = CFlowCompOutput.fullVolumeState.requestedScreenFields.length ∧
      CFlowCompOutput.fullVolumeState.nRequestedVolumeFields
        = CFlowCompOutput.fullVolumeState.requestedVolumeFields.length ∧
      (CFlowCompOutput.new (0 : Int) 2 CFlowCompOutput.exampleConfig
          CFlowCompOutput.fullVolumeState).map
        (fun s' => (s'.nRequestedVolumeFields, s'.requestedVolumeFields.length))
        = some (0, 65536) ∧
      (0 : Nat) ≠ 65536 := by
  have hlist : CFlowCompOutput.fullVolumeState.requestedVolumeFields
      = List.replicate 65535 "SOLUTION" := rfl
  have hcount : CFlowCompOutput.fullVolumeState.nRequestedVolumeFields = 65535 := rfl
  have hgm : CFlowCompOutput.fullVolumeState.gridMovement = true := rfl
  have habsent : "GRID_VELOCITY" ∉ List.replicate 65535 "SOLUTION" := by
    intro h
    exact absurd (List.eq_of_mem_replicate h) (by decide)
  refine ⟨rfl, rfl, ?_, ?_, by decide⟩
  · rw [hlist, hcount, List.length_replicate]
  · obtain ⟨s', hs'⟩ := CFlowCompOutput.new_terminates (0 : Int) 2 CFlowCompOutput.exampleConfig
      CFlowCompOutput.fullVolumeState (by decide) (by decide)
    have hnew := hs'
    rw [CFlowCompOutput.new_eq] at hnew
    obtain ⟨-, -, -, -, f5, f6⟩ := CFlowCompOutput.addLIFT_requested (0 : Int) 2
      CFlowCompOutput.exampleConfig _ s' hnew
    obtain ⟨-, -, -, -, p5, p6, -⟩ := CFlowCompOutput.prepared_fields
      CFlowCompOutput.exampleConfig CFlowCompOutput.fullVolumeState _ rfl
    have hcond : CFlowCompOutput.fullVolumeState.gridMovement = true ∧
        "GRID_VELOCITY" ∉ List.replicate 65535 "SOLUTION" := ⟨hgm, habsent⟩
    have hn0 : ¬ CFlowCompOutput.fullVolumeState.nRequestedVolumeFields = 0 := by
      rw [hcount]
      decide
    have e5 : s'.requestedVolumeFields = List.replicate 65535 "SOLUTION" ++ ["GRID_VELOCITY"] := by
      rw [f5, p5, CFlowCompOutput.addGridVelocity_eq, CFlowCompOutput.setDefaultVolumeFields_eq]
      dsimp only
      rw [if_neg hn0, hlist, if_pos hcond]
    have e6 : s'.nRequestedVolumeFields = 0 := by
      rw [f6, p6, CFlowCompOutput.addGridVelocity_eq, CFlowCompOutput.setDefaultVolumeFields_eq]
      dsimp only
      rw [if_neg hn0, if_neg hn0, hlist, if_pos hcond, hcount]
      rfl
    rw [hs', Option.map_some', e5, e6, List.length_append, List.length_replicate]
    rfl

/-- C17, amended: if on entry to the constructor each of the three counters
equals the length of its requested-field list and, in case the mesh moves and
`GRID_VELOCITY` is not yet requested, the volume-field list has fewer than
65535 entries, then the constructor returns (whenever the convergence-field
list has fewer than 65536 entries, so that the 16-bit search loop ends, and the
fuel suffices), and on return each counter equals the length of its list and
each of the three lists is non-empty; an empty history list has become
`[ITER, RMS_RES]` and an empty volume list starts with
`[COORDINATES, SOLUTION, PRIMITIVE]`.  This holds for every configuration and
every value of the flags `multiZone` and `gridMovement`. -/
theorem C17_constructor_keeps_field_counters {R : Type} (zero : R) (config : CConfig)
    (s : CFlowCompOutput.State R)
    (hH : s.nRequestedHistoryFields = s.requestedHistoryFields.length)
    (hS : s.nRequestedScreenFields = s.requestedScreenFields.length)
    (hV : s.nRequestedVolumeFields = s.requestedVolumeFields.length)
    (hfit : s.gridMovement = true → "GRID_VELOCITY" ∉ s.requestedVolumeFields →
      s.requestedVolumeFields.length < 65535) :
    (s.convFields.length < 65536 → ∀ fuel, s.convFields.length + 2 ≤ fuel →
        ∃ s', CFlowCompOutput.new zero fuel config s = some s') ∧
      ∀ fuel s', CFlowCompOutput.new zero fuel config s = some s' →
        s'.nRequestedHistoryFields = s'.requestedHistoryFields.length ∧
        s'.nRequestedScreenFields = s'.requestedScreenFields.length ∧
        s'.nRequestedVolumeFields = s'.requestedVolumeFields.length ∧
        s'.requestedHistoryFields ≠ [] ∧ s'.requestedScreenFields ≠ [] ∧
        s'.requestedVolumeFields ≠ [] ∧
        (s.requestedHistoryFields = [] → s'.requestedHistoryFields = ["ITER", "RMS_RES"]) ∧
        (s.requestedVolumeFields = [] →
          ["COORDINATES", "SOLUTION", "PRIMITIVE"] <+: s'.requestedVolumeFields) := by
  refine ⟨fun hlen fuel hfuel => CFlowCompOutput.new_terminates zero fuel config s hlen hfuel, ?_⟩
  intro fuel s' h
  rw [CFlowCompOutput.new_eq] at h
  obtain ⟨f1, f2, f3, f4, f5, f6⟩ := CFlowCompOutput.addLIFT_requested zero fuel config _ s' h
  obtain ⟨p1, p2, p3, p4, p5, p6, -⟩ := CFlowCompOutput.prepared_fields config s _ rfl
  obtain ⟨v1, v2, v3⟩ := CFlowCompOutput.volume_fields_after s hV hfit
  rw [f1, f2, f3, f4, f5, f6, p1, p2, p3, p4, p5, p6]
  refine ⟨?_, ?_, v1, ?_, ?_, v2, ?_, v3⟩
  · by_cases h0 : s.nRequestedHistoryFields = 0
    · have hnil : s.requestedHistoryFields = [] := by
        rw [h0] at hH
        exact List.length_eq_zero.mp hH.symm
      rw [if_pos h0, if_pos h0, hnil]
      rfl
    · rw [if_neg h0, if_neg h0]
      exact hH
  · by_cases h0 : s.nRequestedScreenFields = 0
    · have hnil : s.requestedScreenFields = [] := by
        rw [h0] at hS
        exact List.length_eq_zero.mp hS.symm
      rw [if_pos h0, if_pos h0, hnil]
      cases config.Time_Domain <;> cases s.multiZone <;> rfl
    · rw [if_neg h0, if_neg h0]
      exact hS
  · by_cases h0 : s.nRequestedHistoryFields = 0
    · rw [if_pos h0]
      simp
    · rw [if_neg h0]
      intro hnil
      rw [hnil] at hH
      exact h0 hH
  · by_cases h0 : s.nRequestedScreenFields = 0
    · rw [if_pos h0]
      simp
    · rw [if_neg h0]
      intro hnil
      rw [hnil] at hS
      exact h0 hS
  · intro hnil
    have h0 : s.nRequestedHistoryFields = 0 := by rw [hH, hnil]; rfl
    rw [if_pos h0, hnil]
    rfl

/-- Instance of the amended C17: nothing requested on entry (`exampleState`), in
the configuration `exampleConfig`; with fuel 2 the constructor returns, the
three counters are 2, 6 and 4, and the lists have these lengths. -/
theorem C17_constructor_keeps_field_counters_witness :
    CFlowCompOutput.exampleState.nRequestedHistoryFields
        = CFlowCompOutput.exampleState.requestedHistoryFields.length ∧
      CFlowCompOutput.exampleState.nRequestedScreenFields
        = CFlowCompOutput.exampleState.requestedScreenFields.length ∧
      CFlowCompOutput.exampleState.nRequestedVolumeFields
        = CFlowCompOutput.exampleState.requestedVolumeFields.length ∧
      CFlowCompOutput.exampleState.requestedVolumeFields.length < 65535 ∧
      ∃ s', CFlowCompOutput.new (0 : Int) 2 CFlowCompOutput.exampleConfig
            CFlowCompOutput.exampleState = some s' ∧
        s'.nRequestedHistoryFields = s'.requestedHistoryFields.length ∧
        s'.nRequestedScreenFields = s'.requestedScreenFields.length ∧
        s'.nRequestedVolumeFields = s'.requestedVolumeFields.length ∧
        s'.requestedHistoryFields ≠ [] ∧ s'.requestedScreenFields ≠ [] ∧
        s'.requestedVolumeFields ≠ [] ∧
        s'.requestedHistoryFields = ["ITER", "RMS_RES"] ∧
        ["COORDINATES", "SOLUTION", "PRIMITIVE"] <+: s'.requestedVolumeFields ∧
        (s'.nRequestedHistoryFields, s'.nRequestedScreenFields, s'.nRequestedVolumeFields)
          = (2, 6, 4) := by
  have hthm := C17_constructor_keeps_field_counters (0 : Int) CFlowCompOutput.exampleConfig
    CFlowCompOutput.exampleState rfl rfl rfl (fun _ _ => by decide)
  obtain ⟨s', hs'⟩ := hthm.1 (by decide) 2 (by decide)
  obtain ⟨a1, a2, a3, a4, a5, a6, a7, a8⟩ := hthm.2 2 s' hs'
  have hval : CFlowCompOutput.new (0 : Int) 2 CFlowCompOutput.exampleConfig
      CFlowCompOutput.exampleState = some s' := hs'
  have hcounters : (CFlowCompOutput.new (0 : Int) 2 CFlowCompOutput.exampleConfig
      CFlowCompOutput.exampleState).map (fun t => (t.nRequestedHistoryFields,
        t.nRequestedScreenFields, t.nRequestedVolumeFields)) = some (2, 6, 4) := by rfl
  rw [hval, Option.map_some', Option.some.injEq] at hcounters
  exact ⟨rfl, rfl, rfl, by decide, s', hs', a1, a2, a3, a4, a5, a6, a7 rfl, a8 rfl, hcounters⟩

/-- C18: the grid-velocity step of the constructor, and the constructor as a
whole.  With grid movement enabled the volume-field list left by the step
contains `GRID_VELOCITY`: when the name is absent it is appended once, at the
end, and the 16-bit counter is incremented (modulo `2^16`); when it is present
the state is unchanged.  Applying the step to its own result changes nothing,
and with grid movement disabled the step changes nothing.  The constructor
returns (whenever the convergence-field list has fewer than 65536 entries and
the fuel suffices), and whenever it returns, its volume-field list and counter
are those left by the step applied after the default volume fields; so the
list left by the constructor contains `GRID_VELOCITY` when the mesh moves, and
is the list of the default step when it does not. -/
theorem C18_grid_velocity_step {R : Type} (zero : R) (config : CConfig)
    (s : CFlowCompOutput.State R) :
    (s.gridMovement = true →
        "GRID_VELOCITY" ∈ (CFlowCompOutput.addGridVelocity s).requestedVolumeFields) ∧
      (s.gridMovement = true → "GRID_VELOCITY" ∉ s.requestedVolumeFields →
        CFlowCompOutput.addGridVelocity s =
            { s with requestedVolumeFields := s.requestedVolumeFields ++ ["GRID_VELOCITY"],
                     nRequestedVolumeFields :=
                       CFlowCompOutput.wrap16 (s.nRequestedVolumeFields + 1) } ∧
          (CFlowCompOutput.addGridVelocity s).requestedVolumeFields.count "GRID_VELOCITY" = 1 ∧
          (s.nRequestedVolumeFields < 65535 →
            (CFlowCompOutput.addGridVelocity s).nRequestedVolumeFields
              = s.nRequestedVolumeFields + 1) ∧
          (s.nRequestedVolumeFields = 65535 →
            (CFlowCompOutput.addGridVelocity s).nRequestedVolumeFields = 0)) ∧
      ("GRID_VELOCITY" ∈ s.requestedVolumeFields → CFlowCompOutput.addGridVelocity s = s) ∧
      CFlowCompOutput.addGridVelocity (CFlowCompOutput.addGridVelocity s)
        = CFlowCompOutput.addGridVelocity s ∧
      (s.gridMovement = false → CFlowCompOutput.addGridVelocity s = s) ∧
      (s.convFields.length < 65536 → ∀ fuel, s.convFields.length + 2 ≤ fuel →
        ∃ s', CFlowCompOutput.new zero fuel config s = some s' ∧
          s'.requestedVolumeFields = (CFlowCompOutput.addGridVelocity
            (CFlowCompOutput.setDefaultVolumeFields s)).requestedVolumeFields ∧
          s'.nRequestedVolumeFields = (CFlowCompOutput.addGridVelocity
            (CFlowCompOutput.setDefaultVolumeFields s)).nRequestedVolumeFields ∧
          (s.gridMovement = true → "GRID_VELOCITY" ∈ s'.requestedVolumeFields) ∧
          (s.gridMovement = false →
            s'.requestedVolumeFields
              = (CFlowCompOutput.setDefaultVolumeFields s).requestedVolumeFields ∧
            s'.nRequestedVolumeFields
              = (CFlowCompOutput.setDefaultVolumeFields s).nRequestedVolumeFields)) ∧
      (∀ fuel s', CFlowCompOutput.new zero fuel config s = some s' →
        s'.requestedVolumeFields = (CFlowCompOutput.addGridVelocity
          (CFlowCompOutput.setDefaultVolumeFields s)).requestedVolumeFields ∧
        s'.nRequestedVolumeFields = (CFlowCompOutput.addGridVelocity
          (CFlowCompOutput.setDefaultVolumeFields s)).nRequestedVolumeFields ∧
        (s.gridMovement = true → "GRID_VELOCITY" ∈ s'.requestedVolumeFields) ∧
        (s.gridMovement = false →
          s'.requestedVolumeFields
            = (CFlowCompOutput.setDefaultVolumeFields s).requestedVolumeFields ∧
          s'.nRequestedVolumeFields
            = (CFlowCompOutput.setDefaultVolumeFields s).nRequestedVolumeFields)) := by
  have hpres : ∀ t : CFlowCompOutput.State R,
      "GRID_VELOCITY" ∈ t.requestedVolumeFields → CFlowCompOutput.addGridVelocity t = t := by
    intro t hm
    have hn : ¬ (t.gridMovement = true ∧ "GRID_VELOCITY" ∉ t.requestedVolumeFields) :=
      fun h => h.2 hm
    rw [CFlowCompOutput.addGridVelocity_eq, if_neg hn, if_neg hn]
  have hmem : ∀ t : CFlowCompOutput.State R, t.gridMovement = true →
      "GRID_VELOCITY" ∈ (CFlowCompOutput.addGridVelocity t).requestedVolumeFields := by
    intro t hg
    rw [CFlowCompOutput.addGridVelocity_eq]
    dsimp only
    by_cases hm : "GRID_VELOCITY" ∈ t.requestedVolumeFields
    · rw [if_neg (fun h => h.2 hm)]
      exact hm
    · rw [if_pos ⟨hg, hm⟩]
      simp
  have hoff : ∀ t : CFlowCompOutput.State R, t.gridMovement = false →
      CFlowCompOutput.addGridVelocity t = t := by
    intro t hg
    have hn : ¬ (t.gridMovement = true ∧ "GRID_VELOCITY" ∉ t.requestedVolumeFields) := by
      intro h
      rw [hg] at h
      exact absurd h.1 (by decide)
    rw [CFlowCompOutput.addGridVelocity_eq, if_neg hn, if_neg hn]
  have hgm : (CFlowCompOutput.addGridVelocity s).gridMovement = s.gridMovement := by
    rw [CFlowCompOutput.addGridVelocity_eq]
  have hdef : (CFlowCompOutput.setDefaultVolumeFields s).gridMovement = s.gridMovement := by
    rw [CFlowCompOutput.setDefaultVolumeFields_eq]
  have hctor : ∀ fuel s', CFlowCompOutput.new zero fuel config s = some s' →
      s'.requestedVolumeFields = (CFlowCompOutput.addGridVelocity
        (CFlowCompOutput.setDefaultVolumeFields s)).requestedVolumeFields ∧
      s'.nRequestedVolumeFields = (CFlowCompOutput.addGridVelocity
        (CFlowCompOutput.setDefaultVolumeFields s)).nRequestedVolumeFields ∧
      (s.gridMovement = true → "GRID_VELOCITY" ∈ s'.requestedVolumeFields) ∧
      (s.gridMovement = false →
        s'.requestedVolumeFields
          = (CFlowCompOutput.setDefaultVolumeFields s).requestedVolumeFields ∧
        s'.nRequestedVolumeFields
          = (CFlowCompOutput.setDefaultVolumeFields s).nRequestedVolumeFields) := by
    intro fuel s' h
    rw [CFlowCompOutput.new_eq] at h
    obtain ⟨-, -, -, -, f5, f6⟩ := CFlowCompOutput.addLIFT_requested zero fuel config _ s' h
    obtain ⟨-, -, -, -, p5, p6, -⟩ := CFlowCompOutput.prepared_fields config s _ rfl
    refine ⟨f5.trans p5, f6.trans p6, ?_, ?_⟩
    · intro hg
      rw [f5, p5]
      exact hmem _ (hdef.trans hg)
    · intro hg
      rw [f5, p5, f6, p6, hoff _ (hdef.trans hg)]
      exact ⟨rfl, rfl⟩
  refine ⟨hmem s, ?_, hpres s, ?_, hoff s, ?_, hctor⟩
  · intro hg hm
    have hstep : CFlowCompOutput.addGridVelocity s =
        { s with requestedVolumeFields := s.requestedVolumeFields ++ ["GRID_VELOCITY"],
                 nRequestedVolumeFields :=
                   CFlowCompOutput.wrap16 (s.nRequestedVolumeFields + 1) } := by
      rw [CFlowCompOutput.addGridVelocity_eq, if_pos ⟨hg, hm⟩, if_pos ⟨hg, hm⟩]
    refine ⟨hstep, ?_, ?_, ?_⟩
    · rw [hstep]
      dsimp only
      rw [List.count_append, List.count_eq_zero_of_not_mem hm]
      rfl
    · intro hlt
      rw [hstep]
      exact CFlowCompOutput.wrap16_of_lt _ (by omega)
    · intro heq
      rw [hstep]
      dsimp only
      rw [heq]
      rfl
  · cases hg : s.gridMovement with
    | true => exact hpres _ (hmem s hg)
    | false => exact hoff _ (by rw [hgm, hg])
  · intro hlen fuel hfuel
    obtain ⟨s', hs'⟩ := CFlowCompOutput.new_terminates zero fuel config s hlen hfuel
    exact ⟨s', hs', hctor fuel s' hs'⟩

/-- Instance of C18 at `exampleState` (moving mesh, nothing requested), run
through the constructor with fuel 2: the constructor returns, the step receives
the default list `[COORDINATES, SOLUTION, PRIMITIVE]`, and the list left by the
constructor is that list with `GRID_VELOCITY` appended, the counter being 4. -/
theorem C18_grid_velocity_step_witness :
    CFlowCompOutput.exampleState.gridMovement = true ∧
      CFlowCompOutput.exampleState.convFields.length < 65536 ∧
      (CFlowCompOutput.setDefaultVolumeFields CFlowCompOutput.exampleState).requestedVolumeFields
        = ["COORDINATES", "SOLUTION", "PRIMITIVE"] ∧
      ∃ s', CFlowCompOutput.new (0 : Int) 2 CFlowCompOutput.exampleConfig
            CFlowCompOutput.exampleState = some s' ∧
        s'.requestedVolumeFields = ["COORDINATES", "SOLUTION", "PRIMITIVE", "GRID_VELOCITY"] ∧
        s'.nRequestedVolumeFields = 4 ∧
        "GRID_VELOCITY" ∈ s'.requestedVolumeFields := by
  have hthm := C18_grid_velocity_step (0 : Int) CFlowCompOutput.exampleConfig
    CFlowCompOutput.exampleState
  obtain ⟨s', hs', e1, e2, e3, -⟩ := hthm.2.2.2.2.2.1 (by decide) 2 (by decide)
  refine ⟨rfl, by decide, rfl, s', hs', ?_, ?_, e3 rfl⟩
  · rw [e1]
    rfl
  · rw [e2]
    rfl

/-- C19: the constructor returns whenever the convergence-field list has fewer
than 65536 entries (so that the 16-bit search loop ends) and the fuel suffices;
on return the convergence-field list is not empty, an empty list having first
become `[RMS_DENSITY]`.  In fixed-CL mode the list contains `LIFT`: when `LIFT`
was absent it is appended once, as the last entry, and `newFunc`, `oldFunc` and
`cauchySerie` are resized to the new length of `convFields`; when `LIFT` was
present, `convFields` and the three vectors are unchanged.  Outside fixed-CL
mode the three vectors are unchanged as well. -/
theorem C19_convergence_fields {R : Type} (zero : R) (config : CConfig)
    (s : CFlowCompOutput.State R) :
    (s.convFields.length < 65536 → ∀ fuel, s.convFields.length + 2 ≤ fuel →
        ∃ s', CFlowCompOutput.new zero fuel config s = some s') ∧
      (s.convFields = [] → (CFlowCompOutput.setDefaultConvField s).convFields = ["RMS_DENSITY"]) ∧
      ∀ fuel s', CFlowCompOutput.new zero fuel config s = some s' →
        s'.convFields ≠ [] ∧
        (config.Fixed_CL_Mode = true → "LIFT" ∈ s'.convFields) ∧
        (config.Fixed_CL_Mode = true → "LIFT" ∉ s.convFields →
          s'.convFields = (if s.convFields = [] then ["RMS_DENSITY"] else s.convFields) ++ ["LIFT"] ∧
          s'.convFields.count "LIFT" = 1 ∧
          s'.newFunc = CFlowCompOutput.vector_resize s.newFunc s'.convFields.length zero ∧
          s'.oldFunc = CFlowCompOutput.vector_resize s.oldFunc s'.convFields.length zero ∧
          s'.cauchySerie = CFlowCompOutput.vector_resize s.cauchySerie s'.convFields.length
            (List.replicate s.nCauchy_Elems zero) ∧
          s'.newFunc.length = s'.convFields.length ∧ s'.oldFunc.length = s'.convFields.length ∧
          s'.cauchySerie.length = s'.convFields.length) ∧
        (config.Fixed_CL_Mode = true → "LIFT" ∈ s.convFields →
          s'.convFields = s.convFields ∧ s'.newFunc = s.newFunc ∧ s'.oldFunc = s.oldFunc ∧
          s'.cauchySerie = s.cauchySerie) ∧
        (config.Fixed_CL_Mode = false →
          s'.convFields = (if s.convFields = [] then ["RMS_DENSITY"] else s.convFields) ∧
          s'.newFunc = s.newFunc ∧ s'.oldFunc = s.oldFunc ∧ s'.cauchySerie = s.cauchySerie) := by
  refine ⟨fun hlen fuel hfuel => CFlowCompOutput.new_terminates zero fuel config s hlen hfuel,
    ?_, ?_⟩
  · intro hnil
    rw [CFlowCompOutput.setDefaultConvField_eq]
    dsimp only
    rw [if_pos hnil]
  intro fuel s' h
  rw [CFlowCompOutput.new_eq] at h
  obtain ⟨-, -, -, -, -, -, pc, pn, po, pcs, pe⟩ := CFlowCompOutput.prepared_fields config s _ rfl
  have hne : (if s.convFields = [] then ["RMS_DENSITY"] else s.convFields) ≠ [] := by
    split_ifs with h0
    · simp
    · exact h0
  have hiff : "LIFT" ∈ (if s.convFields = [] then ["RMS_DENSITY"] else s.convFields) ↔
      "LIFT" ∈ s.convFields := by
    split_ifs with h0
    · rw [h0]
      decide
    · exact Iff.rfl
  rcases CFlowCompOutput.addLIFT_cases zero fuel config _ s' h with
    ⟨hc, hs⟩ | ⟨hc, hm, hs⟩ | ⟨hc, hm, hs⟩
  · have e1 : s'.convFields = (if s.convFields = [] then ["RMS_DENSITY"] else s.convFields) := by
      rw [hs, pc]
    have e2 : s'.newFunc = s.newFunc := by rw [hs, pn]
    have e3 : s'.oldFunc = s.oldFunc := by rw [hs, po]
    have e4 : s'.cauchySerie = s.cauchySerie := by rw [hs, pcs]
    refine ⟨by rw [e1]; exact hne, ?_, ?_, ?_, fun _ => ⟨e1, e2, e3, e4⟩⟩
    · intro hc'
      rw [hc] at hc'
      exact absurd hc' (by decide)
    · intro hc'
      rw [hc] at hc'
      exact absurd hc' (by decide)
    · intro hc'
      rw [hc] at hc'
      exact absurd hc' (by decide)
  · rw [pc] at hm
    have hm' := hiff.mp hm
    have h0 : s.convFields ≠ [] := by
      intro h0
      rw [h0] at hm'
      exact absurd hm' (by decide)
    have e1 : s'.convFields = s.convFields := by rw [hs, pc, if_neg h0]
    have e2 : s'.newFunc = s.newFunc := by rw [hs, pn]
    have e3 : s'.oldFunc = s.oldFunc := by rw [hs, po]
    have e4 : s'.cauchySerie = s.cauchySerie := by rw [hs, pcs]
    refine ⟨by rw [e1]; exact h0, fun _ => by rw [e1]; exact hm', ?_, fun _ _ => ⟨e1, e2, e3, e4⟩,
      ?_⟩
    · intro _ habs
      exact absurd hm' habs
    · intro hc'
      rw [hc] at hc'
      exact absurd hc' (by decide)
  · rw [pc] at hm
    have hm' : "LIFT" ∉ s.convFields := fun hx => hm (hiff.mpr hx)
    have e1 : s'.convFields =
        (if s.convFields = [] then ["RMS_DENSITY"] else s.convFields) ++ ["LIFT"] := by
      rw [hs]
      dsimp only
      rw [pc]
    have e2 : s'.newFunc = CFlowCompOutput.vector_resize s.newFunc s'.convFields.length zero := by
      rw [hs]
      dsimp only
      rw [pn]
    have e3 : s'.oldFunc = CFlowCompOutput.vector_resize s.oldFunc s'.convFields.length zero := by
      rw [hs]
      dsimp only
      rw [po]
    have e4 : s'.cauchySerie = CFlowCompOutput.vector_resize s.cauchySerie s'.convFields.length
        (List.replicate s.nCauchy_Elems zero) := by
      rw [hs]
      dsimp only
      rw [pcs, pe]
    refine ⟨by rw [e1]; simp, fun _ => by rw [e1]; simp, ?_, ?_, ?_⟩
    · intro _ _
      refine ⟨e1, ?_, e2, e3, e4, ?_, ?_, ?_⟩
      · rw [e1, List.count_append, List.count_eq_zero_of_not_mem hm]
        rfl
      · rw [e2, CFlowCompOutput.vector_resize_length]
      · rw [e3, CFlowCompOutput.vector_resize_length]
      · rw [e4, CFlowCompOutput.vector_resize_length]
    · intro _ habs
      exact absurd habs hm'
    · intro hc'
      rw [hc] at hc'
      exact absurd hc' (by decide)

/-- Instance of C19 at `exampleState` in fixed-CL mode: the empty list becomes
`[RMS_DENSITY, LIFT]` and the three vectors get length 2. -/
theorem C19_convergence_fields_witness :
    CFlowCompOutput.exampleConfig.Fixed_CL_Mode = true ∧
      "LIFT" ∉ CFlowCompOutput.exampleState.convFields ∧
      ∃ s', CFlowCompOutput.new (0 : Int) 2 CFlowCompOutput.exampleConfig
            CFlowCompOutput.exampleState = some s' ∧
        s'.convFields = ["RMS_DENSITY", "LIFT"] ∧ s'.newFunc.length = 2 ∧
        s'.oldFunc.length = 2 ∧ s'.cauchySerie.length = 2 := by
  have hthm := C19_convergence_fields (0 : Int) CFlowCompOutput.exampleConfig
    CFlowCompOutput.exampleState
  obtain ⟨s', hs'⟩ := hthm.1 (by decide) 2 (by decide)
  obtain ⟨-, -, habs, -, -⟩ := hthm.2.2 2 s' hs'
  obtain ⟨e1, -, -, -, -, l1, l2, l3⟩ := habs rfl (by decide)
  have e1' : s'.convFields = ["RMS_DENSITY", "LIFT"] := e1
  refine ⟨rfl, by decide, s', hs', e1', ?_, ?_, ?_⟩
  · rw [l1, e1']
    rfl
  · rw [l2, e1']
    rfl
  · rw [l3, e1']
    rfl

/-! ## Velocity and acceleration at time `n` of the structural variables -/

theorem CFEAVariable.SetSolution_Vel_time_n_eq {R : Type} (v : CFEAVariable R) :
    v.SetSolution_Vel_time_n = CFEAVariable.copyColumns v.nDim v := rfl

theorem CFEAVariable.SetSolution_Accel_time_n_eq {R : Type} (v : CFEAVariable R) :
    v.SetSolution_Accel_time_n = CFEAVariable.copyColumns (wrap64 (2 * v.nDim)) v := rfl

theorem wrap64_of_lt (n : Nat) (h : n < 18446744073709551616) : wrap64 n = n :=
  Nat.mod_eq_of_lt h

theorem CFEAVariable.copyEntry_spec {R : Type} (off iPoint iVar : Nat) (w : CFEAVariable R)
    (hrS : iPoint < w.Solution.rows) (hrT : iPoint < w.Solution_time_n.rows)
    (hcS : iVar + off < w.Solution.cols) (hcT : iVar + off < w.Solution_time_n.cols)
    (hw : w.Solution.cols ≤ 18446744073709551616) :
    ∃ w', CFEAVariable.copyEntry off iPoint w iVar = some w' ∧
      w'.Solution = w.Solution ∧ w'.nPoint = w.nPoint ∧ w'.nDim = w.nDim ∧ w'.nVar = w.nVar ∧
      w'.Solution_time_n.rows = w.Solution_time_n.rows ∧
      w'.Solution_time_n.cols = w.Solution_time_n.cols ∧
      ∀ i j, w'.Solution_time_n.entry i j =
        if i = iPoint ∧ j = iVar + off then w.Solution.entry i j
        else w.Solution_time_n.entry i j := by
  have hwrap : wrap64 (iVar + off) = iVar + off := wrap64_of_lt _ (by omega)
  unfold CFEAVariable.copyEntry su2activematrix.get su2activematrix.set
  rw [hwrap, if_pos ⟨hrS, hcS⟩]
  dsimp only
  rw [if_pos ⟨hrT, hcT⟩]
  refine ⟨_, rfl, rfl, rfl, rfl, rfl, rfl, rfl, ?_⟩
  intro i j
  dsimp only
  by_cases hij : i = iPoint ∧ j = iVar + off
  · rw [if_pos hij, if_pos hij, hij.1, hij.2]
  · rw [if_neg hij, if_neg hij]

theorem CFEAVariable.copyRow_spec {R : Type} (off iPoint : Nat) (w : CFEAVariable R)
    (hrS : iPoint < w.Solution.rows) (hrT : iPoint < w.Solution_time_n.rows)
    (hw : w.Solution.cols ≤ 18446744073709551616) (k : Nat) :
    off + k ≤ w.Solution.cols → off + k ≤ w.Solution_time_n.cols →
    ∃ w', CFEAVariable.copyRow off k w iPoint = some w' ∧
      w'.Solution = w.Solution ∧ w'.nPoint = w.nPoint ∧ w'.nDim = w.nDim ∧ w'.nVar = w.nVar ∧
      w'.Solution_time_n.rows = w.Solution_time_n.rows ∧
      w'.Solution_time_n.cols = w.Solution_time_n.cols ∧
      ∀ i j, w'.Solution_time_n.entry i j =
        if i = iPoint ∧ off ≤ j ∧ j < off + k then w.Solution.entry i j
        else w.Solution_time_n.entry i j := by
  induction k with
  | zero =>
    intro _ _
    refine ⟨w, rfl, rfl, rfl, rfl, rfl, rfl, rfl, ?_⟩
    intro i j
    rw [if_neg]
    omega
  | succ k ih =>
    intro hcS hcT
    obtain ⟨w1, h1, e1, e2, e3, e4, e5, e6, e7⟩ := ih (by omega) (by omega)
    obtain ⟨w2, h2, g1, g2, g3, g4, g5, g6, g7⟩ :=
      CFEAVariable.copyEntry_spec off iPoint k w1 (by rw [e1]; exact hrS) (by rw [e5]; exact hrT)
        (by rw [e1]; omega) (by rw [e6]; omega) (by rw [e1]; exact hw)
    unfold CFEAVariable.copyRow at h1 ⊢
    rw [List.range_succ, List.foldlM_append, h1]
    refine ⟨w2, ?_, g1.trans e1, g2.trans e2, g3.trans e3, g4.trans e4, g5.trans e5,
      g6.trans e6, ?_⟩
    · simpa using h2
    · intro i j
      rw [g7 i j, e7 i j, e1]
      by_cases ha : i = iPoint ∧ j = k + off
      · rw [if_pos ha, if_pos ⟨ha.1, by omega, by omega⟩]
      · rw [if_neg ha]
        by_cases hb : i = iPoint ∧ off ≤ j ∧ j < off + k
        · rw [if_pos hb, if_pos ⟨hb.1, hb.2.1, by omega⟩]
        · rw [if_neg hb, if_neg]
          intro hc
          rcases hc with ⟨c1, c2, c3⟩
          by_cases hj : j = k + off
          · exact ha ⟨c1, hj⟩
          · exact hb ⟨c1, c2, by omega⟩

theorem CFEAVariable.copyRows_spec {R : Type} (off nVar : Nat) (v : CFEAVariable R)
    (hw : v.Solution.cols ≤ 18446744073709551616)
    (hcS : off + nVar ≤ v.Solution.cols) (hcT : off + nVar ≤ v.Solution_time_n.cols) (p : Nat) :
    p ≤ v.Solution.rows → p ≤ v.Solution_time_n.rows →
    ∃ w', (List.range p).foldlM (CFEAVariable.copyRow off nVar) v = some w' ∧
      w'.Solution = v.Solution ∧ w'.nPoint = v.nPoint ∧ w'.nDim = v.nDim ∧ w'.nVar = v.nVar ∧
      w'.Solution_time_n.rows = v.Solution_time_n.rows ∧
      w'.Solution_time_n.cols = v.Solution_time_n.cols ∧
      ∀ i j, w'.Solution_time_n.entry i j =
        if i < p ∧ off ≤ j ∧ j < off + nVar then v.Solution.entry i j
        else v.Solution_time_n.entry i j := by
  induction p with
  | zero =>
    intro _ _
    refine ⟨v, rfl, rfl, rfl, rfl, rfl, rfl, rfl, ?_⟩
    intro i j
    rw [if_neg]
    omega
  | succ p ih =>
    intro hrS hrT
    obtain ⟨w1, h1, e1, e2, e3, e4, e5, e6, e7⟩ := ih (by omega) (by omega)
    obtain ⟨w2, h2, g1, g2, g3, g4, g5, g6, g7⟩ :=
      CFEAVariable.copyRow_spec off p w1 (by rw [e1]; omega) (by rw [e5]; omega)
        (by rw [e1]; exact hw) nVar (by rw [e1]; exact hcS) (by rw [e6]; exact hcT)
    rw [List.range_succ, List.foldlM_append, h1]
    refine ⟨w2, ?_, g1.trans e1, g2.trans e2, g3.trans e3, g4.trans e4, g5.trans e5,
      g6.trans e6, ?_⟩
    · simpa using h2
    · intro i j
      rw [g7 i j, e7 i j, e1]
      by_cases ha : i = p ∧ off ≤ j ∧ j < off + nVar
      · rw [if_pos ha, if_pos ⟨by omega, ha.2.1, ha.2.2⟩]
      · rw [if_neg ha]
        by_cases hb : i < p ∧ off ≤ j ∧ j < off + nVar
        · rw [if_pos hb, if_pos ⟨by omega, hb.2.1, hb.2.2⟩]
        · rw [if_neg hb, if_neg]
          intro hc
          rcases hc with ⟨c1, c2, c3⟩
          by_cases hi : i = p
          · exact ha ⟨hi, c2, c3⟩
          · exact hb ⟨by omega, c2, c3⟩

/-- C20: for every point count, `nDim` and `nVar`, with `Solution` and
`Solution_time_n` of at least `nPoint` rows and at least
`max(nDim, 2*nDim) + nVar` columns (a column count being a 64-bit value):
`SetSolution_Vel_time_n` returns, and overwrites exactly the entries of
`Solution_time_n` in rows `< nPoint` and columns `[nDim, nDim+nVar)` with the
entries of `Solution` at the same positions; `SetSolution_Accel_time_n` does
the same for the columns `[2*nDim, 2*nDim+nVar)`.  Every other entry of
`Solution_time_n`, its dimensions, all of `Solution` and the three counts are
unchanged. -/
theorem C20_time_n_copies (R : Type) (v : CFEAVariable R)
    (hrS : v.nPoint ≤ v.Solution.rows) (hrT : v.nPoint ≤ v.Solution_time_n.rows)
    (hcS : max v.nDim (2 * v.nDim) + v.nVar ≤ v.Solution.cols)
    (hcT : max v.nDim (2 * v.nDim) + v.nVar ≤ v.Solution_time_n.cols)
    (hw : v.Solution.cols < 18446744073709551616) :
    (∃ w, v.SetSolution_Vel_time_n = some w ∧
        w.Solution = v.Solution ∧ w.nPoint = v.nPoint ∧ w.nDim = v.nDim ∧ w.nVar = v.nVar ∧
        w.Solution_time_n.rows = v.Solution_time_n.rows ∧
        w.Solution_time_n.cols = v.Solution_time_n.cols ∧
        ∀ i j, w.Solution_time_n.entry i j =
          if i < v.nPoint ∧ v.nDim ≤ j ∧ j < v.nDim + v.nVar then v.Solution.entry i j
          else v.Solution_time_n.entry i j) ∧
      (∃ w, v.SetSolution_Accel_time_n = some w ∧
        w.Solution = v.Solution ∧ w.nPoint = v.nPoint ∧ w.nDim = v.nDim ∧ w.nVar = v.nVar ∧
        w.Solution_time_n.rows = v.Solution_time_n.rows ∧
        w.Solution_time_n.cols = v.Solution_time_n.cols ∧
        ∀ i j, w.Solution_time_n.entry i j =
          if i < v.nPoint ∧ 2 * v.nDim ≤ j ∧ j < 2 * v.nDim + v.nVar then v.Solution.entry i j
          else v.Solution_time_n.entry i j) := by
  have hmax : max v.nDim (2 * v.nDim) = 2 * v.nDim := by omega
  rw [hmax] at hcS hcT
  constructor
  · rw [CFEAVariable.SetSolution_Vel_time_n_eq]
    exact CFEAVariable.copyRows_spec v.nDim v.nVar v (by omega) (by omega) (by omega) v.nPoint
      hrS hrT
  · rw [CFEAVariable.SetSolution_Accel_time_n_eq, wrap64_of_lt (2 * v.nDim) (by omega)]
    exact CFEAVariable.copyRows_spec (2 * v.nDim) v.nVar v (by omega) hcS hcT v.nPoint hrS hrT

/-- Instance of C20 at `exampleVariable` (2 points, `nDim = nVar = 2`, matrices
of 2 rows and 6 columns): after `SetSolution_Vel_time_n` the entry (1, 3) of
`Solution_time_n` is `Solution(1, 3) = 103` and the entries (1, 1) and (1, 4)
are still `-1`; after `SetSolution_Accel_time_n` the entry (1, 4) is 104 and
the entry (1, 3) is still `-1`. -/
theorem C20_time_n_copies_witness :
    (∃ w, CFEAVariable.exampleVariable.SetSolution_Vel_time_n = some w ∧
        w.Solution_time_n.entry 1 3 = 103 ∧ w.Solution_time_n.entry 1 1 = -1 ∧
        w.Solution_time_n.entry 1 4 = -1) ∧
      (∃ w, CFEAVariable.exampleVariable.SetSolution_Accel_time_n = some w ∧
        w.Solution_time_n.entry 1 4 = 104 ∧ w.Solution_time_n.entry 1 3 = -1) := by
  have hthm := C20_time_n_copies Int CFEAVariable.exampleVariable (by decide) (by decide)
    (by decide) (by decide) (by decide)
  obtain ⟨⟨w1, h1, -, -, -, -, -, -, e1⟩, ⟨w2, h2, -, -, -, -, -, -, e2⟩⟩ := hthm
  refine ⟨⟨w1, h1, ?_, ?_, ?_⟩, ⟨w2, h2, ?_, ?_⟩⟩
  · rw [e1 1 3]; rfl
  · rw [e1 1 1]; rfl
  · rw [e1 1 4]; rfl
  · rw [e2 1 4]; rfl
  · rw [e2 1 3]; rfl

/-! ## Face matching: association lists -/

theorem assoc_eq_none {α β : Type} [DecidableEq α] (a : α) (l : List (α × β)) :
    assoc a l = none ↔ a ∉ l.map Prod.fst := by
  induction l with
  | nil => simp [assoc]
  | cons p rest ih =>
    obtain ⟨a', b⟩ := p
    by_cases h : a' = a
    · simp [assoc, h]
    · have h' : ¬ a = a' := fun hc => h hc.symm
      simp [assoc, h, h', ih]

theorem assoc_mem {α β : Type} [DecidableEq α] (a : α) (b : β) (l : List (α × β))
    (h : assoc a l = some b) : (a, b) ∈ l := by
  induction l with
  | nil => simp [assoc] at h
  | cons p rest ih =>
    obtain ⟨a', b'⟩ := p
    by_cases hc : a' = a
    · simp only [assoc, hc, if_true, Option.some.injEq] at h
      rw [hc, h]
      exact List.mem_cons_self _ _
    · simp only [assoc, hc, if_false] at h
      exact List.mem_cons_of_mem _ (ih h)

theorem assoc_cons_self {α β : Type} [DecidableEq α] (a : α) (b : β) (l : List (α × β)) :
    assoc a ((a, b) :: l) = some b := by
  simp [assoc]

theorem assoc_cons_ne {α β : Type} [DecidableEq α] (a a' : α) (b : β) (l : List (α × β))
    (h : a' ≠ a) : assoc a ((a', b) :: l) = assoc a l := by
  simp [assoc, h]

theorem fst_unique_of_nodup {α β : Type} (l : List (α × β)) (hnd : (l.map Prod.fst).Nodup)
    (a : α) (b1 b2 : β) (h1 : (a, b1) ∈ l) (h2 : (a, b2) ∈ l) : b1 = b2 := by
  induction l with
  | nil => simp at h1
  | cons p rest ih =>
    rw [List.map_cons, List.nodup_cons] at hnd
    rcases List.mem_cons.mp h1 with e1 | m1
    · rcases List.mem_cons.mp h2 with e2 | m2
      · rw [← e1] at e2
        exact (Prod.mk.inj e2).2.symm
      · exact absurd (List.mem_map.mpr ⟨(a, b2), m2, by rw [← e1]⟩) hnd.1
    · rcases List.mem_cons.mp h2 with e2 | m2
      · exact absurd (List.mem_map.mpr ⟨(a, b1), m1, by rw [← e2]⟩) hnd.1
      · exact ih hnd.2 m1 m2

theorem count_keys_snoc (done : List (FaceRef × FaceKey)) (x : FaceRef × FaceKey) (k : FaceKey) :
    ((done ++ [x]).map Prod.snd).count k =
      (done.map Prod.snd).count k + (if x.2 = k then 1 else 0) := by
  rw [List.map_append, List.count_append, List.map_cons, List.map_nil, List.count_cons]
  simp

/-! ## Face matching: one step of the scan -/

theorem matchFace_third (done : List (FaceRef × FaceKey)) (st : MatchState)
    (x : FaceRef × FaceKey) (hinv : ScanInv done st)
    (hc : (done.map Prod.snd).count x.2 = 2) : matchFace st x = .error .TopologyError := by
  unfold matchFace
  rw [if_pos ((hinv.cons_iff x.2).mpr hc)]

theorem matchFace_first (done : List (FaceRef × FaceKey)) (st : MatchState)
    (x : FaceRef × FaceKey) (hinv : ScanInv done st)
    (hc : (done.map Prod.snd).count x.2 = 0) :
    ∃ st', matchFace st x = .ok st' ∧ ScanInv (done ++ [x]) st' := by
  have hcons : x.2 ∉ st.consumed := by
    intro h
    have := (hinv.cons_iff x.2).mp h
    omega
  have hpend : assoc x.2 st.pending = none := by
    rw [assoc_eq_none]
    intro h
    obtain ⟨p, hp, hpk⟩ := List.mem_map.mp h
    have := (hinv.pend_sound p.1 p.2 hp).2
    rw [hpk] at this
    omega
  refine ⟨{ st with pending := (x.2, x.1) :: st.pending }, ?_, ?_⟩
  · unfold matchFace
    rw [if_neg hcons, hpend]
  · have hcount : ∀ k, ((done ++ [x]).map Prod.snd).count k =
        (done.map Prod.snd).count k + (if x.2 = k then 1 else 0) := count_keys_snoc done x
    constructor
    · intro k
      rw [hcount]
      have := hinv.le_two k
      by_cases hk : x.2 = k
      · rw [if_pos hk, ← hk, hc]
        decide
      · rw [if_neg hk]
        exact this
    · intro k r hkr
      rcases List.mem_cons.mp hkr with e | m
      · obtain ⟨e1, e2⟩ := Prod.mk.inj e
        subst e1
        subst e2
        refine ⟨List.mem_append_right _ (List.mem_singleton.mpr rfl), ?_⟩
        rw [hcount, hc, if_pos rfl]
      · obtain ⟨h1, h2⟩ := hinv.pend_sound k r m
        refine ⟨List.mem_append_left _ h1, ?_⟩
        rw [hcount, h2, if_neg]
        intro hk
        rw [hk] at hc
        omega
    · intro k hk
      rw [hcount] at hk
      by_cases hxk : x.2 = k
      · rw [← hxk]
        exact List.mem_map.mpr ⟨(x.2, x.1), List.mem_cons_self _ _, rfl⟩
      · rw [if_neg hxk] at hk
        obtain ⟨p, hp, hpk⟩ := List.mem_map.mp (hinv.pend_complete k hk)
        exact List.mem_map.mpr ⟨p, List.mem_cons_of_mem _ hp, hpk⟩
    · intro k
      rw [hcount]
      by_cases hxk : x.2 = k
      · rw [if_pos hxk, ← hxk, hc]
        constructor
        · intro h
          exact absurd h hcons
        · intro h
          omega
      · rw [if_neg hxk]
        exact hinv.cons_iff k
    · intro r n hrn
      obtain ⟨k, h1, h2⟩ := hinv.slot_sound r n hrn
      refine ⟨k, List.mem_append_left _ h1, ?_⟩
      rw [hcount, h2, if_neg]
      intro hk
      rw [hk] at hc
      omega
    · intro r n hrn
      obtain ⟨e2, f2, k, h1, h2, h3, h4⟩ := hinv.slot_sym r n hrn
      exact ⟨e2, f2, k, h1, h2, List.mem_append_left _ h3, List.mem_append_left _ h4⟩

theorem matchFace_second (done : List (FaceRef × FaceKey)) (st : MatchState)
    (x : FaceRef × FaceKey) (hinv : ScanInv done st)
    (hnd : ((done ++ [x]).map Prod.fst).Nodup)
    (hc : (done.map Prod.snd).count x.2 = 1) :
    ∃ st', matchFace st x = .ok st' ∧ ScanInv (done ++ [x]) st' := by
  have hndd : (done.map Prod.fst).Nodup := by
    rw [List.map_append, List.nodup_append] at hnd
    exact hnd.1
  have hfresh : x.1 ∉ done.map Prod.fst := by
    rw [List.map_append, List.nodup_append] at hnd
    intro h
    exact hnd.2.2 h (by simp)
  have hcons : x.2 ∉ st.consumed := by
    intro h
    have := (hinv.cons_iff x.2).mp h
    omega
  obtain ⟨owner, howner⟩ : ∃ owner, assoc x.2 st.pending = some owner := by
    cases h : assoc x.2 st.pending with
    | none => exact absurd (hinv.pend_complete x.2 hc) ((assoc_eq_none _ _).mp h)
    | some o => exact ⟨o, rfl⟩
  have hownerdone : (owner, x.2) ∈ done :=
    (hinv.pend_sound x.2 owner (assoc_mem _ _ _ howner)).1
  have hne : owner ≠ x.1 := by
    intro h
    rw [h] at hownerdone
    exact hfresh (List.mem_map.mpr ⟨_, hownerdone, rfl⟩)
  have hslot_refs : ∀ r, r ∈ st.slots.map Prod.fst →
      ∃ k, (r, k) ∈ done ∧ (done.map Prod.snd).count k = 2 := by
    intro r hr
    obtain ⟨p, hp, hpr⟩ := List.mem_map.mp hr
    obtain ⟨k, h1, h2⟩ := hinv.slot_sound p.1 p.2 hp
    rw [hpr] at h1
    exact ⟨k, h1, h2⟩
  have hown_free : owner ∉ st.slots.map Prod.fst := by
    intro h
    obtain ⟨k, h1, h2⟩ := hslot_refs owner h
    have := fst_unique_of_nodup done hndd owner k x.2 h1 hownerdone
    rw [this] at h2
    omega
  have hx_free : x.1 ∉ st.slots.map Prod.fst := by
    intro h
    obtain ⟨k, h1, -⟩ := hslot_refs x.1 h
    exact hfresh (List.mem_map.mpr ⟨_, h1, rfl⟩)
  have hset1 : SetNeighbor st.slots owner (.element x.1.1) =
      .ok ((owner, .element x.1.1) :: st.slots) := by
    unfold SetNeighbor
    rw [(assoc_eq_none _ _).mpr hown_free]
  have hset2 : SetNeighbor ((owner, Neighbor.element x.1.1) :: st.slots) x.1
      (.element owner.1) =
      .ok ((x.1, .element owner.1) :: (owner, .element x.1.1) :: st.slots) := by
    unfold SetNeighbor
    rw [assoc_cons_ne _ _ _ _ hne, (assoc_eq_none _ _).mpr hx_free]
  refine ⟨{ pending := st.pending.filter (fun p => decide (p.1 ≠ x.2)),
            consumed := x.2 :: st.consumed,
            slots := (x.1, .element owner.1) :: (owner, .element x.1.1) :: st.slots }, ?_, ?_⟩
  · unfold matchFace
    rw [if_neg hcons, howner]
    dsimp only
    rw [hset1]
    dsimp only
    rw [hset2]
  · have hcount : ∀ k, ((done ++ [x]).map Prod.snd).count k =
        (done.map Prod.snd).count k + (if x.2 = k then 1 else 0) := count_keys_snoc done x
    have hxin : x ∈ done ++ [x] := List.mem_append_right _ (List.mem_singleton.mpr rfl)
    constructor
    · intro k
      rw [hcount]
      by_cases hk : x.2 = k
      · rw [if_pos hk, ← hk, hc]
      · rw [if_neg hk]
        exact hinv.le_two k
    · intro k r hkr
      obtain ⟨hm, hp⟩ := List.mem_filter.mp hkr
      have hk : k ≠ x.2 := by simpa using hp
      obtain ⟨h1, h2⟩ := hinv.pend_sound k r hm
      refine ⟨List.mem_append_left _ h1, ?_⟩
      rw [hcount, h2, if_neg (fun h => hk h.symm)]
    · intro k hk
      rw [hcount] at hk
      by_cases hxk : x.2 = k
      · rw [if_pos hxk, ← hxk, hc] at hk
        omega
      · rw [if_neg hxk] at hk
        obtain ⟨p, hp, hpk⟩ := List.mem_map.mp (hinv.pend_complete k hk)
        refine List.mem_map.mpr ⟨p, List.mem_filter.mpr ⟨hp, ?_⟩, hpk⟩
        rw [decide_eq_true_eq, hpk]
        exact fun h => hxk h.symm
    · intro k
      rw [hcount]
      by_cases hxk : x.2 = k
      · rw [if_pos hxk, ← hxk, hc]
        constructor
        · intro _
          rfl
        · intro _
          exact List.mem_cons_self _ _
      · rw [if_neg hxk]
        constructor
        · intro h
          rcases List.mem_cons.mp h with e | m
          · exact absurd e.symm hxk
          · exact (hinv.cons_iff k).mp m
        · intro h
          exact List.mem_cons_of_mem _ ((hinv.cons_iff k).mpr h)
    · intro r n hrn
      rcases List.mem_cons.mp hrn with e | m
      · obtain ⟨e1, -⟩ := Prod.mk.inj e
        refine ⟨x.2, by rw [e1]; exact hxin, ?_⟩
        rw [hcount, hc, if_pos rfl]
      · rcases List.mem_cons.mp m with e | m'
        · obtain ⟨e1, -⟩ := Prod.mk.inj e
          refine ⟨x.2, by rw [e1]; exact List.mem_append_left _ hownerdone, ?_⟩
          rw [hcount, hc, if_pos rfl]
        · obtain ⟨k, h1, h2⟩ := hinv.slot_sound r n m'
          refine ⟨k, List.mem_append_left _ h1, ?_⟩
          rw [hcount, h2, if_neg]
          intro hk
          rw [hk] at hc
          omega
    · intro r n hrn
      dsimp only at hrn
      by_cases hrx : r = x.1
      · rw [hrx, assoc_cons_self] at hrn
        have hn : n = Neighbor.element owner.1 := (Option.some.inj hrn).symm
        refine ⟨owner.1, owner.2, x.2, hn, ?_, by rw [hrx]; exact hxin,
          List.mem_append_left _ hownerdone⟩
        dsimp only
        rw [hrx, assoc_cons_ne _ _ _ _ (fun h => hne h.symm), assoc_cons_self]
      · rw [assoc_cons_ne _ _ _ _ (fun h => hrx h.symm)] at hrn
        by_cases hro : r = owner
        · rw [hro, assoc_cons_self] at hrn
          have hn : n = Neighbor.element x.1.1 := (Option.some.inj hrn).symm
          refine ⟨x.1.1, x.1.2, x.2, hn, ?_, by rw [hro]; exact List.mem_append_left _ hownerdone,
            hxin⟩
          dsimp only
          rw [hro, assoc_cons_self]
        · rw [assoc_cons_ne _ _ _ _ (fun h => hro h.symm)] at hrn
          obtain ⟨e2, f2, k, h1, h2, h3, h4⟩ := hinv.slot_sym r n hrn
          refine ⟨e2, f2, k, h1, ?_, List.mem_append_left _ h3, List.mem_append_left _ h4⟩
          dsimp only
          have hp1 : x.1 ≠ (e2, f2) := by
            intro h
            exact hfresh (List.mem_map.mpr ⟨_, h4, h.symm⟩)
          have hp2 : owner ≠ (e2, f2) := by
            intro h
            apply hown_free
            rw [h]
            exact List.mem_map.mpr ⟨_, assoc_mem _ _ _ h2, rfl⟩
          rw [assoc_cons_ne _ _ _ _ hp1, assoc_cons_ne _ _ _ _ hp2]
          exact h2

/-! ## Face matching: the whole scan -/

theorem scanInv_init : ScanInv [] { pending := [], consumed := [], slots := [] } := by
  constructor
  · intro k; simp
  · intro k r h; simp at h
  · intro k h; simp at h
  · intro k; simp
  · intro r n h; simp at h
  · intro r n h; simp [assoc] at h

theorem matchFaces_spec (rest : List (FaceRef × FaceKey)) :
    ∀ (done : List (FaceRef × FaceKey)) (st : MatchState), ScanInv done st →
      ((done ++ rest).map Prod.fst).Nodup →
      ((∃ k, 3 ≤ ((done ++ rest).map Prod.snd).count k) →
          matchFaces st rest = .error .TopologyError) ∧
        ((∀ k, ((done ++ rest).map Prod.snd).count k ≤ 2) →
          ∃ st', matchFaces st rest = .ok st' ∧ ScanInv (done ++ rest) st') := by
  induction rest with
  | nil =>
    intro done st hinv _
    rw [List.append_nil]
    constructor
    · rintro ⟨k, hk⟩
      have := hinv.le_two k
      omega
    · intro _
      exact ⟨st, rfl, hinv⟩
  | cons x rest ih =>
    intro done st hinv hnd
    have happ : done ++ x :: rest = (done ++ [x]) ++ rest := by simp
    have hnd1 : ((done ++ [x]).map Prod.fst).Nodup := by
      rw [happ, List.map_append, List.nodup_append] at hnd
      exact hnd.1
    have hle := hinv.le_two x.2
    by_cases h2 : (done.map Prod.snd).count x.2 = 2
    · have herr := matchFace_third done st x hinv h2
      constructor
      · intro _
        unfold matchFaces
        rw [herr]
      · intro hall
        have := hall x.2
        rw [List.map_append, List.count_append, List.map_cons, List.count_cons_self, h2] at this
        omega
    · have hstep : ∃ st', matchFace st x = .ok st' ∧ ScanInv (done ++ [x]) st' := by
        by_cases h1 : (done.map Prod.snd).count x.2 = 1
        · exact matchFace_second done st x hinv hnd1 h1
        · exact matchFace_first done st x hinv (by omega)
      obtain ⟨st', hst', hinv'⟩ := hstep
      have hrec := ih (done ++ [x]) st' hinv' (by rw [← happ]; exact hnd)
      rw [← happ] at hrec
      constructor
      · intro h
        unfold matchFaces
        rw [hst']
        exact hrec.1 h
      · intro h
        unfold matchFaces
        rw [hst']
        exact hrec.2 h

theorem matchFaces_init (faces : List (FaceRef × FaceKey)) (hnd : (faces.map Prod.fst).Nodup) :
    ((∃ k, 3 ≤ (faces.map Prod.snd).count k) →
        matchFaces { pending := [], consumed := [], slots := [] } faces = .error .TopologyError) ∧
      ((∀ k, (faces.map Prod.snd).count k ≤ 2) →
        ∃ st, matchFaces { pending := [], consumed := [], slots := [] } faces = .ok st ∧
          ScanInv faces st) := by
  have := matchFaces_spec faces [] _ scanInv_init (by simpa using hnd)
  simpa using this

/-! ## Face matching: boundary faces -/

theorem markBoundary_spec (pending : List (FaceKey × FaceRef)) :
    ∀ slots : Slots,
      (∀ p ∈ pending, assoc p.2 slots = none ∨ assoc p.2 slots = some Neighbor.boundary) →
      ∃ slots', markBoundary slots pending = .ok slots' ∧
        (∀ r, assoc r slots' = assoc r slots ∨
          (assoc r slots = none ∧ assoc r slots' = some Neighbor.boundary ∧
            r ∈ pending.map Prod.snd)) ∧
        (∀ p ∈ pending, assoc p.2 slots' = some Neighbor.boundary) := by
  induction pending with
  | nil =>
    intro slots _
    exact ⟨slots, rfl, fun r => Or.inl rfl, fun p hp => by simp at hp⟩
  | cons p rest ih =>
    intro slots h
    have hp := h p (List.mem_cons_self _ _)
    rcases hp with hnone | hb
    · have hset : SetNeighbor slots p.2 .boundary = .ok ((p.2, .boundary) :: slots) := by
        unfold SetNeighbor
        rw [hnone]
      have hrest : ∀ q ∈ rest, assoc q.2 ((p.2, Neighbor.boundary) :: slots) = none ∨
          assoc q.2 ((p.2, Neighbor.boundary) :: slots) = some Neighbor.boundary := by
        intro q hq
        by_cases hqp : p.2 = q.2
        · rw [← hqp, assoc_cons_self]
          exact Or.inr rfl
        · rw [assoc_cons_ne _ _ _ _ hqp]
          exact h q (List.mem_cons_of_mem _ hq)
      obtain ⟨slots', h1, h2, h3⟩ := ih _ hrest
      refine ⟨slots', ?_, ?_, ?_⟩
      · unfold markBoundary
        rw [hset]
        exact h1
      · intro r
        by_cases hrp : p.2 = r
        · rcases h2 r with e | ⟨e1, -, -⟩
          · rw [← hrp, assoc_cons_self] at e
            refine Or.inr ⟨by rw [← hrp]; exact hnone, by rw [← hrp]; exact e, ?_⟩
            rw [← hrp]
            exact List.mem_map.mpr ⟨p, List.mem_cons_self _ _, rfl⟩
          · rw [← hrp, assoc_cons_self] at e1
            exact absurd e1 (by simp)
        · rcases h2 r with e | ⟨e1, e2, e3⟩
          · rw [assoc_cons_ne _ _ _ _ hrp] at e
            exact Or.inl e
          · rw [assoc_cons_ne _ _ _ _ hrp] at e1
            refine Or.inr ⟨e1, e2, ?_⟩
            rw [List.map_cons]
            exact List.mem_cons_of_mem _ e3
      · intro q hq
        rcases List.mem_cons.mp hq with e | m
        · rcases h2 q.2 with e' | ⟨-, e2, -⟩
          · rw [e'] 
            rw [e, assoc_cons_self]
          · exact e2
        · exact h3 q m
    · have hset : SetNeighbor slots p.2 .boundary = .ok slots := by
        unfold SetNeighbor
        rw [hb]
        simp
      obtain ⟨slots', h1, h2, h3⟩ := ih slots (fun q hq => h q (List.mem_cons_of_mem _ hq))
      refine ⟨slots', ?_, ?_, ?_⟩
      · unfold markBoundary
        rw [hset]
        exact h1
      · intro r
        rcases h2 r with e | ⟨e1, e2, e3⟩
        · exact Or.inl e
        · refine Or.inr ⟨e1, e2, ?_⟩
          rw [List.map_cons]
          exact List.mem_cons_of_mem _ e3
      · intro q hq
        rcases List.mem_cons.mp hq with e | m
        · rcases h2 q.2 with e' | ⟨-, e2, -⟩
          · rw [e', e]
            exact hb
          · exact e2
        · exact h3 q m

/-! ## Face matching: the faces collected in step 1 -/

theorem mapM_ok_length {α β : Type} (f : α → Except Error β) :
    ∀ (l : List α) (r : List β), l.mapM f = .ok r → r.length = l.length := by
  intro l
  induction l with
  | nil =>
    intro r h
    rw [List.mapM_nil] at h
    cases h
    rfl
  | cons a rest ih =>
    intro r h
    rw [List.mapM_cons] at h
    cases hfa : f a with
    | error err =>
      rw [hfa] at h
      cases h
    | ok b =>
      rw [hfa] at h
      cases hrest : List.mapM f rest with
      | error err =>
        rw [hrest] at h
        cases h
      | ok bs =>
        rw [hrest] at h
        cases h
        rw [List.length_cons, List.length_cons, ih bs hrest]

theorem Element.faceKeys_length (e : Element) (keys : List FaceKey)
    (h : e.faceKeys = .ok keys) : keys.length = e.descriptor.nFaces := by
  unfold Element.faceKeys at h
  rw [mapM_ok_length _ _ _ h, List.length_range]

theorem Element.faces_ok (id : Nat) (e : Element) (here : List (FaceRef × FaceKey))
    (h : e.faces id = .ok here) :
    ∃ keys, e.faceKeys = .ok keys ∧ here.map Prod.snd = keys ∧
      here.map Prod.fst = (List.range e.descriptor.nFaces).map (fun f => (id, f)) := by
  unfold Element.faces at h
  cases hk : e.faceKeys with
  | error err =>
    rw [hk] at h
    cases h
  | ok keys =>
    rw [hk] at h
    cases h
    refine ⟨keys, rfl, ?_, ?_⟩
    · rw [List.map_map]
      exact List.enum_map_snd keys
    · rw [List.map_map, ← Element.faceKeys_length e keys hk, ← List.enum_map_fst keys,
        List.map_map]
      rfl

theorem collectFaces_refs (es : List Element) :
    ∀ (id : Nat) (faces : List (FaceRef × FaceKey)), collectFaces id es = .ok faces →
      (faces.map Prod.fst).Nodup ∧
        ∀ r ∈ faces.map Prod.fst, id ≤ r.1 ∧
          ∃ e, es[r.1 - id]? = some e ∧ r.2 < e.descriptor.nFaces := by
  induction es with
  | nil =>
    intro id faces h
    unfold collectFaces at h
    cases h
    exact ⟨List.nodup_nil, fun r hr => by simp at hr⟩
  | cons e rest ih =>
    intro id faces h
    unfold collectFaces at h
    cases hhere : e.faces id with
    | error err =>
      rw [hhere] at h
      cases h
    | ok here =>
      rw [hhere] at h
      cases hothers : collectFaces (id + 1) rest with
      | error err =>
        rw [hothers] at h
        cases h
      | ok others =>
        rw [hothers] at h
        cases h
        obtain ⟨keys, -, -, hrefs⟩ := Element.faces_ok id e here hhere
        obtain ⟨hnd, hmem⟩ := ih (id + 1) others hothers
        have hhere_mem : ∀ r ∈ here.map Prod.fst, r.1 = id ∧ r.2 < e.descriptor.nFaces := by
          intro r hr
          rw [hrefs] at hr
          obtain ⟨f, hf, hfr⟩ := List.mem_map.mp hr
          rw [← hfr]
          exact ⟨rfl, List.mem_range.mp hf⟩
        constructor
        · rw [List.map_append, List.nodup_append]
          refine ⟨?_, hnd, ?_⟩
          · rw [hrefs]
            apply List.Nodup.map _ (List.nodup_range _)
            intro a b hab
            exact (Prod.mk.inj hab).2
          · intro r hr1 hr2
            have h1 := (hhere_mem r hr1).1
            have h2 := (hmem r hr2).1
            omega
        · intro r hr
          rw [List.map_append, List.mem_append] at hr
          rcases hr with hr | hr
          · obtain ⟨h1, h2⟩ := hhere_mem r hr
            refine ⟨by omega, e, ?_, h2⟩
            rw [h1, Nat.sub_self]
            exact List.getElem?_cons_zero
          · obtain ⟨h1, e', h2, h3⟩ := hmem r hr
            refine ⟨by omega, e', ?_, h3⟩
            have : r.1 - id = (r.1 - (id + 1)) + 1 := by omega
            rw [this, List.getElem?_cons_succ]
            exact h2

theorem count_of_nodup (keys : List FaceKey) (hnd : keys.Nodup) (key : FaceKey) :
    keys.count key = (if keys.contains key = true then 1 else 0) := by
  induction keys with
  | nil => rfl
  | cons k rest ih =>
    rw [List.nodup_cons] at hnd
    rw [List.count_cons, ih hnd.2, List.contains_cons]
    by_cases hk : k = key
    · have hnot : rest.contains key = false := by
        rw [← hk]
        simpa using hnd.1
      have hmem : key ∉ rest := by
        rw [← hk]
        exact hnd.1
      simp [hk, hmem]
    · have hne : (k == key) = false := by simpa using hk
      have hne2 : (key == k) = false := by simpa using fun h : key = k => hk h.symm
      simp [hne, hne2]

theorem collectFaces_count (es : List Element) :
    ∀ (id : Nat) (faces : List (FaceRef × FaceKey)), collectFaces id es = .ok faces →
      (∀ e ∈ es, e.facesDistinct = true) →
      ∀ key, (faces.map Prod.snd).count key = elementsWithFace es key := by
  induction es with
  | nil =>
    intro id faces h _ key
    unfold collectFaces at h
    cases h
    rfl
  | cons e rest ih =>
    intro id faces h hd key
    unfold collectFaces at h
    cases hhere : e.faces id with
    | error err =>
      rw [hhere] at h
      cases h
    | ok here =>
      rw [hhere] at h
      cases hothers : collectFaces (id + 1) rest with
      | error err =>
        rw [hothers] at h
        cases h
      | ok others =>
        rw [hothers] at h
        cases h
        obtain ⟨keys, hkeys, hsnd, -⟩ := Element.faces_ok id e here hhere
        have hrest := ih (id + 1) others hothers (fun e' he' => hd e' (List.mem_cons_of_mem _ he')) key
        have hde := hd e (List.mem_cons_self _ _)
        unfold Element.facesDistinct at hde
        rw [hkeys] at hde
        have hnodup : keys.Nodup := of_decide_eq_true hde
        have hhas : e.hasFace key = keys.contains key := by
          unfold Element.hasFace
          rw [hkeys]
        have hcountP : elementsWithFace (e :: rest) key =
            elementsWithFace rest key + (if keys.contains key = true then 1 else 0) := by
          unfold elementsWithFace
          rw [List.countP_cons, hhas]
        have hcount := count_of_nodup keys hnodup key
        rw [List.map_append, List.count_append, hsnd, hrest, hcountP, hcount, Nat.add_comm]

theorem collectFaces_ok (es : List Element) :
    ∀ (id : Nat), (∀ e ∈ es, e.facesDistinct = true) →
      ∃ faces, collectFaces id es = .ok faces := by
  induction es with
  | nil =>
    intro id _
    exact ⟨[], rfl⟩
  | cons e rest ih =>
    intro id hd
    obtain ⟨others, hothers⟩ := ih (id + 1) (fun e' he' => hd e' (List.mem_cons_of_mem _ he'))
    have hde := hd e (List.mem_cons_self _ _)
    unfold Element.facesDistinct at hde
    cases hk : e.faceKeys with
    | error err =>
      rw [hk] at hde
      cases hde
    | ok keys =>
      refine ⟨keys.enum.map (fun p => ((id, p.1), p.2)) ++ others, ?_⟩
      unfold collectFaces Element.faces
      rw [hk]
      dsimp only
      rw [hothers]

/-! ## The adjacency builder -/

theorem pending_unset (faces : List (FaceRef × FaceKey)) (st : MatchState)
    (hinv : ScanInv faces st) (hnd : (faces.map Prod.fst).Nodup) :
    ∀ p ∈ st.pending.reverse,
      assoc p.2 st.slots = none ∨ assoc p.2 st.slots = some Neighbor.boundary := by
  intro p hp
  left
  rw [assoc_eq_none]
  intro hmem
  obtain ⟨q, hq, hqp⟩ := List.mem_map.mp hmem
  obtain ⟨k, h1, h2⟩ := hinv.slot_sound q.1 q.2 hq
  obtain ⟨h3, h4⟩ := hinv.pend_sound p.1 p.2 (List.mem_reverse.mp hp)
  rw [hqp] at h1
  have := fst_unique_of_nodup faces hnd p.2 k p.1 h1 h3
  rw [this] at h2
  omega

theorem buildAdjacency_of_faces (es : List Element) (faces : List (FaceRef × FaceKey))
    (hc : collectFaces 0 es = .ok faces) :
    ((∃ k, 3 ≤ (faces.map Prod.snd).count k) → buildAdjacency es = .error .TopologyError) ∧
      ((∀ k, (faces.map Prod.snd).count k ≤ 2) →
        ∃ st slots, ScanInv faces st ∧
          (∀ r, assoc r slots = assoc r st.slots ∨
            (assoc r st.slots = none ∧ assoc r slots = some Neighbor.boundary)) ∧
          buildAdjacency es =
            .ok { slots := slots, boundaryFaces := st.pending.reverse.map (fun p => p.2) }) := by
  have hnd := (collectFaces_refs es 0 faces hc).1
  obtain ⟨herr, hok⟩ := matchFaces_init faces hnd
  constructor
  · intro h
    unfold buildAdjacency
    rw [hc]
    dsimp only
    rw [herr h]
  · intro h
    obtain ⟨st, hst, hinv⟩ := hok h
    obtain ⟨slots, hm, hrel, -⟩ :=
      markBoundary_spec st.pending.reverse st.slots (pending_unset faces st hinv hnd)
    refine ⟨st, slots, hinv, ?_, ?_⟩
    · intro r
      rcases hrel r with e | ⟨e1, e2, -⟩
      · exact Or.inl e
      · exact Or.inr ⟨e1, e2⟩
    · unfold buildAdjacency
      rw [hc]
      dsimp only
      rw [hst]
      dsimp only
      rw [hm]

theorem buildAdjacency_ok_inv (es : List Element) (T : Topology)
    (h : buildAdjacency es = .ok T) :
    ∃ faces st, collectFaces 0 es = .ok faces ∧ ScanInv faces st ∧
      (∀ r, assoc r T.slots = assoc r st.slots ∨
        (assoc r st.slots = none ∧ assoc r T.slots = some Neighbor.boundary)) ∧
      T.boundaryFaces = st.pending.reverse.map (fun p => p.2) := by
  cases hc : collectFaces 0 es with
  | error err =>
    unfold buildAdjacency at h
    rw [hc] at h
    cases h
  | ok faces =>
    obtain ⟨herr, hok⟩ := buildAdjacency_of_faces es faces hc
    by_cases hthree : ∃ k, 3 ≤ (faces.map Prod.snd).count k
    · rw [herr hthree] at h
      cases h
    · have hall : ∀ k, (faces.map Prod.snd).count k ≤ 2 := by
        intro k
        by_contra hk
        exact hthree ⟨k, by omega⟩
      obtain ⟨st, slots, hinv, hrel, hb⟩ := hok hall
      rw [hb] at h
      cases h
      exact ⟨faces, st, rfl, hinv, hrel, rfl⟩

theorem buildAdjacency_symmetric (es : List Element) (T : Topology)
    (h : buildAdjacency es = .ok T) (e f e2 : Nat)
    (hn : T.GetNeighbor e f = Neighbor.element e2) :
    ∃ f2 el2, es[e2]? = some el2 ∧ f2 < el2.descriptor.nFaces ∧
      T.GetNeighbor e2 f2 = Neighbor.element e := by
  obtain ⟨faces, st, hc, hinv, hrel, -⟩ := buildAdjacency_ok_inv es T h
  have hslot : assoc (e, f) T.slots = some (Neighbor.element e2) := by
    unfold Topology.GetNeighbor at hn
    cases ha : assoc (e, f) T.slots with
    | none =>
      rw [ha] at hn
      cases hn
    | some n =>
      rw [ha] at hn
      exact congrArg some hn
  have hst : assoc (e, f) st.slots = some (Neighbor.element e2) := by
    rcases hrel (e, f) with e1 | ⟨-, e1⟩
    · rw [← e1]
      exact hslot
    · rw [hslot] at e1
      cases e1
  obtain ⟨e2', f2, k, h1, h2, -, h4⟩ := hinv.slot_sym (e, f) _ hst
  cases h1
  have hT : assoc (e2, f2) T.slots = some (Neighbor.element e) := by
    rcases hrel (e2, f2) with e1 | ⟨e1, -⟩
    · rw [e1]
      exact h2
    · rw [h2] at e1
      cases e1
  obtain ⟨-, el2, hel, hf⟩ := (collectFaces_refs es 0 faces hc).2 (e2, f2)
    (List.mem_map.mpr ⟨_, h4, rfl⟩)
  refine ⟨f2, el2, hel, hf, ?_⟩
  unfold Topology.GetNeighbor
  rw [hT]

/-! ## Valid elements are well formed for face matching -/

theorem mapM_ok_of_forall {α β : Type} (f : α → Except Error β) (g : α → β) :
    ∀ l : List α, (∀ a ∈ l, f a = .ok (g a)) → l.mapM f = .ok (l.map g) := by
  intro l
  induction l with
  | nil =>
    intro _
    rfl
  | cons a rest ih =>
    intro h
    rw [List.mapM_cons, h a (List.mem_cons_self _ _),
      ih (fun b hb => h b (List.mem_cons_of_mem _ hb))]
    rfl

theorem Element.faceKey_of_valid (e : Element) (hlen : e.nodes.length = e.descriptor.nNodes)
    (hrows : e.descriptor.faceNodeIndices.length = e.descriptor.nFaces)
    (hidx : ∀ row ∈ e.descriptor.faceNodeIndices, ∀ i ∈ row, i < e.descriptor.nNodes)
    (f : Nat) (hf : f < e.descriptor.nFaces) :
    e.faceKey f = .ok (((e.descriptor.faceNodeIndices.getD f []).map
      (fun i => e.nodes.getD i 0)).insertionSort (fun a b => a ≤ b)) := by
  have hflen : f < e.descriptor.faceNodeIndices.length := by rw [hrows]; exact hf
  have hrow : e.descriptor.faceNodeIndices[f]? = some (e.descriptor.faceNodeIndices.getD f []) := by
    rw [List.getD_eq_getElem?_getD, List.getElem?_eq_getElem hflen]
    rfl
  have hmem : e.descriptor.faceNodeIndices.getD f [] ∈ e.descriptor.faceNodeIndices := by
    rw [List.mem_iff_getElem?]
    exact ⟨f, hrow⟩
  have hnode : ∀ i ∈ e.descriptor.faceNodeIndices.getD f [],
      e.GetNode i = .ok (e.nodes.getD i 0) := by
    intro i hi
    have hin := hidx _ hmem i hi
    have hil : i < e.nodes.length := by rw [hlen]; exact hin
    unfold Element.GetNode
    rw [if_pos hin, List.getD_eq_getElem?_getD, List.getElem?_eq_getElem hil]
    rfl
  unfold Element.faceKey Element.GetFaceNodeGlobalIndices
  rw [if_pos hf, hrow]
  dsimp only
  rw [mapM_ok_of_forall _ _ _ hnode]

theorem mem_of_sameKey (nodes : List Nat) (hnd : nodes.Nodup) (r1 r2 : List Nat)
    (h1 : ∀ i ∈ r1, i < nodes.length) (h2 : ∀ i ∈ r2, i < nodes.length)
    (hk : (r1.map (fun i => nodes.getD i 0)).insertionSort (fun a b => a ≤ b) =
      (r2.map (fun i => nodes.getD i 0)).insertionSort (fun a b => a ≤ b)) :
    ∀ i ∈ r1, i ∈ r2 := by
  intro i hi
  have hp1 := List.perm_insertionSort (fun a b : Nat => a ≤ b) (r1.map (fun i => nodes.getD i 0))
  have hp2 := List.perm_insertionSort (fun a b : Nat => a ≤ b) (r2.map (fun i => nodes.getD i 0))
  have hmem1 : nodes.getD i 0 ∈ r1.map (fun i => nodes.getD i 0) :=
    List.mem_map.mpr ⟨i, hi, rfl⟩
  have hmem2 : nodes.getD i 0 ∈ r2.map (fun i => nodes.getD i 0) := by
    rw [← hp2.mem_iff, ← hk, hp1.mem_iff]
    exact hmem1
  obtain ⟨j, hj, hji⟩ := List.mem_map.mp hmem2
  have hil := h1 i hi
  have hjl := h2 j hj
  have hget : nodes[j] = nodes[i] := by
    have e1 : nodes.getD j 0 = nodes[j] := by
      rw [List.getD_eq_getElem?_getD, List.getElem?_eq_getElem hjl]
      rfl
    have e2 : nodes.getD i 0 = nodes[i] := by
      rw [List.getD_eq_getElem?_getD, List.getElem?_eq_getElem hil]
      rfl
    rw [← e1, ← e2]
    exact hji
  have := (hnd.getElem_inj_iff).mp hget
  rw [← this]
  exact hj

theorem Element.facesDistinct_of_valid (e : Element) (h : e.valid = true) :
    e.facesDistinct = true := by
  unfold Element.valid ShapeDescriptor.wellFormed at h
  simp only [Bool.and_eq_true, decide_eq_true_eq, List.all_eq_true, List.mem_range,
    Bool.or_eq_true, Bool.not_eq_true'] at h
  obtain ⟨⟨hlen, hnd⟩, ⟨hrows, hidx⟩, hdist⟩ := h
  have hkey := Element.faceKey_of_valid e hlen hrows hidx
  have hkeys : e.faceKeys = .ok ((List.range e.descriptor.nFaces).map (fun f =>
      ((e.descriptor.faceNodeIndices.getD f []).map
        (fun i => e.nodes.getD i 0)).insertionSort (fun a b => a ≤ b))) := by
    unfold Element.faceKeys
    exact mapM_ok_of_forall _ _ _ (fun f hf => hkey f (List.mem_range.mp hf))
  unfold Element.facesDistinct
  rw [hkeys]
  dsimp only
  rw [decide_eq_true_eq]
  apply List.Nodup.map_on _ (List.nodup_range _)
  intro f1 hf1 f2 hf2 hk
  have hf1' := List.mem_range.mp hf1
  have hf2' := List.mem_range.mp hf2
  have hrow : ∀ f, f < e.descriptor.nFaces →
      ∀ i ∈ e.descriptor.faceNodeIndices.getD f [], i < e.nodes.length := by
    intro f hf i hi
    have hflen : f < e.descriptor.faceNodeIndices.length := by rw [hrows]; exact hf
    have hmem : e.descriptor.faceNodeIndices.getD f [] ∈ e.descriptor.faceNodeIndices := by
      rw [List.mem_iff_getElem?]
      refine ⟨f, ?_⟩
      rw [List.getD_eq_getElem?_getD, List.getElem?_eq_getElem hflen]
      rfl
    rw [hlen]
    exact hidx _ hmem i hi
  rcases hdist f1 hf1' f2 hf2' with heq | hne
  · exact heq
  · exfalso
    have hsame : sameNodes (e.descriptor.faceNodeIndices.getD f1 [])
        (e.descriptor.faceNodeIndices.getD f2 []) = true := by
      unfold sameNodes
      simp only [Bool.and_eq_true, List.all_eq_true]
      constructor
      · intro i hi
        have := mem_of_sameKey e.nodes hnd _ _ (hrow f1 hf1') (hrow f2 hf2') hk i hi
        simpa using this
      · intro i hi
        have := mem_of_sameKey e.nodes hnd _ _ (hrow f2 hf2') (hrow f1 hf1') hk.symm i hi
        simpa using this
    rw [hsame] at hne
    cases hne

theorem buildAdjacency_degenerate_element :
    Element.facesDistinct { descriptor := triangleDescriptor, nodes := [1, 1, 2] } = false ∧
      elementsWithFace [{ descriptor := triangleDescriptor, nodes := [1, 1, 2] },
        { descriptor := triangleDescriptor, nodes := [1, 2, 3] }] [1, 2] = 2 ∧
      buildAdjacency [{ descriptor := triangleDescriptor, nodes := [1, 1, 2] },
        { descriptor := triangleDescriptor, nodes := [1, 2, 3] }] = .error .TopologyError :=
  ⟨by decide, by decide, rfl⟩

theorem valid_examples :
    (∀ e ∈ twoTriangles, e.valid = true) ∧ (∀ e ∈ threeTetrahedra, e.valid = true) ∧
      lineDescriptor.wellFormed = true := by
  decide

/-- C13: whenever the adjacency builder returns a topology, its neighbor
relation is symmetric: if local face `f` of element `e` has the neighbor `e2`
(an element, not the boundary sentinel), then `e2` is an element of the set
and has a local face `f2` whose neighbor is `e`.  The builder does return a
topology on every manifold set (no FaceKey is a face of more than two
elements) of elements that are well formed for face matching. -/
theorem C13_neighbor_relation_symmetric (es : List Element) :
    ((∀ e ∈ es, e.facesDistinct = true) → (∀ key, elementsWithFace es key ≤ 2) →
        ∃ T, buildAdjacency es = .ok T) ∧
      ∀ T, buildAdjacency es = .ok T →
        ∀ e f e2, T.GetNeighbor e f = Neighbor.element e2 →
          ∃ f2 el2, es[e2]? = some el2 ∧ f2 < el2.descriptor.nFaces ∧
            T.GetNeighbor e2 f2 = Neighbor.element e := by
  constructor
  · intro hd hman
    obtain ⟨faces, hc⟩ := collectFaces_ok es 0 hd
    have hcount := collectFaces_count es 0 faces hc hd
    obtain ⟨-, hok⟩ := buildAdjacency_of_faces es faces hc
    obtain ⟨st, slots, -, -, hb⟩ := hok (fun k => by rw [hcount k]; exact hman k)
    exact ⟨_, hb⟩
  · intro T h e f e2 hn
    exact buildAdjacency_symmetric es T h e f e2 hn

/-- Instance of C13, scenario 2 of the spec: the triangles A = `[1,2,3]` (id 0)
and B = `[2,1,4]` (id 1) become mutual neighbors across their faces 0, the
shared edge `{1,2}`; the other two edges of each are boundary faces. -/
theorem C13_neighbor_relation_symmetric_witness :
    (∀ e ∈ twoTriangles, e.facesDistinct = true) ∧
      ∃ T, buildAdjacency twoTriangles = .ok T ∧
        T.GetNeighbor 0 0 = Neighbor.element 1 ∧ T.GetNeighbor 1 0 = Neighbor.element 0 ∧
        T.GetNeighbor 0 1 = Neighbor.boundary ∧ T.GetNeighbor 0 2 = Neighbor.boundary ∧
        T.GetNeighbor 1 1 = Neighbor.boundary ∧ T.GetNeighbor 1 2 = Neighbor.boundary ∧
        T.boundaryFaces = [(0, 1), (0, 2), (1, 1), (1, 2)] ∧
        ∃ f2 el2, twoTriangles[1]? = some el2 ∧ f2 < el2.descriptor.nFaces ∧
          T.GetNeighbor 1 f2 = Neighbor.element 0 := by
  have hd : ∀ e ∈ twoTriangles, e.facesDistinct = true := by decide
  have hman : ∀ key, elementsWithFace twoTriangles key ≤ 2 := fun key => List.countP_le_length _
  obtain ⟨T, hT⟩ := (C13_neighbor_relation_symmetric twoTriangles).1 hd hman
  have hval : buildAdjacency twoTriangles = .ok
      { slots := [((1, 2), .boundary), ((1, 1), .boundary), ((0, 2), .boundary),
          ((0, 1), .boundary), ((1, 0), .element 0), ((0, 0), .element 1)],
        boundaryFaces := [(0, 1), (0, 2), (1, 1), (1, 2)] } := by rfl
  have hsym := (C13_neighbor_relation_symmetric twoTriangles).2 T hT 0 0 1
  rw [hval] at hT
  cases hT
  exact ⟨hd, _, hval, rfl, rfl, rfl, rfl, rfl, rfl, rfl, hsym rfl⟩

/-- C14: on every set of elements that are well formed for face matching (the
FaceKeys of the local faces of one element are pairwise distinct, as they are
for every valid element, see `Element.facesDistinct_of_valid`), the adjacency
build fails with a TopologyError exactly when some FaceKey occurs as a face of
three or more elements; otherwise it returns a topology. -/
theorem C14_nonmanifold_iff_three_elements (es : List Element)
    (hd : ∀ e ∈ es, e.facesDistinct = true) :
    (buildAdjacency es = .error .TopologyError ↔ ∃ key, 3 ≤ elementsWithFace es key) ∧
      ((¬ ∃ key, 3 ≤ elementsWithFace es key) → ∃ T, buildAdjacency es = .ok T) := by
  obtain ⟨faces, hc⟩ := collectFaces_ok es 0 hd
  have hcount := collectFaces_count es 0 faces hc hd
  obtain ⟨herr, hok⟩ := buildAdjacency_of_faces es faces hc
  have hgood : (¬ ∃ key, 3 ≤ elementsWithFace es key) → ∃ T, buildAdjacency es = .ok T := by
    intro hno
    have hall : ∀ k, (faces.map Prod.snd).count k ≤ 2 := by
      intro k
      rw [hcount k]
      by_contra hk
      exact hno ⟨k, by omega⟩
    obtain ⟨st, slots, -, -, hb⟩ := hok hall
    exact ⟨_, hb⟩
  refine ⟨⟨?_, ?_⟩, hgood⟩
  · intro hfail
    by_contra hno
    obtain ⟨T, hT⟩ := hgood hno
    rw [hT] at hfail
    cases hfail
  · rintro ⟨key, hkey⟩
    exact herr ⟨key, by rw [hcount key]; exact hkey⟩

/-- Instance of C14, scenario 3 of the spec: three tetrahedra which all contain
the face `{1,2,3}`; the build fails with a TopologyError. -/
theorem C14_nonmanifold_iff_three_elements_witness :
    (∀ e ∈ threeTetrahedra, e.facesDistinct = true) ∧
      elementsWithFace threeTetrahedra [1, 2, 3] = 3 ∧
      buildAdjacency threeTetrahedra = .error .TopologyError :=
  ⟨by decide, by decide,
    (C14_nonmanifold_iff_three_elements threeTetrahedra (by decide)).1.mpr
      ⟨[1, 2, 3], by decide⟩⟩

end SU2
